import Mathlib

/-!
# Arduboy2DotMG display driver: embedding of `src/Arduboy2CoreDotMG.cpp`

Every driver function is translated to a pure function that returns the list of
hardware events it performs (pin writes, SPI transfers, delays), together with
the new value of the module-level variables when it changes them.  Machine
integers are natural numbers or integers reduced modulo `2^8` / `2^16` where the
C code stores them in a `uint8_t` / `uint16_t`.
-/

namespace Arduboy2DotMG

/-! ## Header constants

`Arduboy2CoreDotMG.h` is not among the sources, so the constants it defines are
parameters of the embedding. -/

/-- Panel geometry constants of the header: `WIDTH`, `HEIGHT`, `TFT_WIDTH`, `TFT_HEIGHT`. -/
structure Geometry where
  WIDTH : Nat
  HEIGHT : Nat
  TFT_WIDTH : Nat
  TFT_HEIGHT : Nat
  deriving DecidableEq, Repr

/-- Remaining header constants: controller opcodes, orientation masks, named colours,
LED indices and the `COLOR` packing function. -/
structure Consts where
  ST77XX_SWRESET : Nat
  ST77XX_SLPIN : Nat
  ST77XX_SLPOUT : Nat
  ST7735_FRMCTR1 : Nat
  ST77XX_MADCTL : Nat
  ST77XX_COLMOD : Nat
  ST7735_GMCTRP1 : Nat
  ST7735_GMCTRN1 : Nat
  ST77XX_DISPON : Nat
  ST77XX_DISPOFF : Nat
  ST77XX_INVON : Nat
  ST77XX_INVOFF : Nat
  ST77XX_CASET : Nat
  ST77XX_RASET : Nat
  ST77XX_RAMWR : Nat
  ST77XX_MADCTL_MX : Nat
  ST77XX_MADCTL_MY : Nat
  ST77XX_GRAY : Nat
  ST77XX_BLACK : Nat
  ST77XX_WHITE : Nat
  RED_LED : Nat
  GREEN_LED : Nat
  BLUE_LED : Nat
  RGB_ON : Nat
  COLOR : Nat → Nat → Nat → Nat

/-- The DotMG geometry: a 128x64 drawing area centred on a 160x128 panel. -/
def dotMG : Geometry := ⟨128, 64, 160, 128⟩

/-- Modelled from the spec: the header constants of the DotMG build, which the sources
do not contain.  Opcodes and orientation masks are the ST7735 controller values, colours
are 12-bit `0xRGB`, and `COLOR` packs three 4-bit channels into 12 bits (section 3 of the
spec: four bits per component, twelve bits in total). -/
def dotMGConsts : Consts where
  ST77XX_SWRESET := 0x01
  ST77XX_SLPIN := 0x10
  ST77XX_SLPOUT := 0x11
  ST7735_FRMCTR1 := 0xB1
  ST77XX_MADCTL := 0x36
  ST77XX_COLMOD := 0x3A
  ST7735_GMCTRP1 := 0xE0
  ST7735_GMCTRN1 := 0xE1
  ST77XX_DISPON := 0x29
  ST77XX_DISPOFF := 0x28
  ST77XX_INVON := 0x21
  ST77XX_INVOFF := 0x20
  ST77XX_CASET := 0x2A
  ST77XX_RASET := 0x2B
  ST77XX_RAMWR := 0x2C
  ST77XX_MADCTL_MX := 0x40
  ST77XX_MADCTL_MY := 0x80
  ST77XX_GRAY := 0x888
  ST77XX_BLACK := 0x000
  ST77XX_WHITE := 0xFFF
  RED_LED := 0
  GREEN_LED := 1
  BLUE_LED := 2
  RGB_ON := 1
  COLOR := fun r g b => ((r % 16) * 256 + (g % 16) * 16 + b % 16)

/-! ## Hardware events -/

/-- Control lines of the panel driven by the driver. -/
inductive Pin
  | TFT_CS
  | TFT_DC
  | TFT_RST
  deriving DecidableEq, Repr

/-- One observable step of the driver.  `region` and `load` are markers, not
bus traffic: `region` is logged when a call of `setWriteRegion` returns and records its
arguments, `load` records a read of `image[cell]`. -/
inductive Ev
  | pinMode (p : Pin)
  | pinWrite (p : Pin) (high : Bool)
  | beginTransaction
  | endTransaction
  | transfer (b : Nat)
  | delay (ms : Nat)
  | region (x y width height : Nat)
  | load (cell : Nat)
  deriving DecidableEq, Repr

/-- Conversion of a C `int` to `uint8_t`. -/
def u8 (i : Int) : Nat := (i % 256).toNat

/-- Module-level variables of the driver (lines 10-17). -/
structure State where
  borderLineColor : Nat
  borderFillColor : Nat
  pixelColor : Nat
  bgColor : Nat
  MADCTL : Nat
  LEDs : List Nat
  inverted : Bool
  borderDrawn : Bool
  deriving DecidableEq, Repr

/-- Initial values of the module-level variables. -/
def State.init (k : Consts) : State where
  borderLineColor := k.ST77XX_GRAY % 65536
  borderFillColor := k.ST77XX_BLACK % 65536
  pixelColor := k.ST77XX_WHITE % 65536
  bgColor := k.ST77XX_BLACK % 65536
  MADCTL := k.ST77XX_MADCTL_MY % 256
  LEDs := [0, 0, 0]
  inverted := false
  borderDrawn := false

/-! ## Transport and framing -/

/-- `LCDDataMode`: raise the data/command line. -/
def LCDDataMode : List Ev := [.pinWrite .TFT_DC true]

/-- `LCDCommandMode`: lower the data/command line. -/
def LCDCommandMode : List Ev := [.pinWrite .TFT_DC false]

/-- `startSPItransfer`: open a bus transaction and select the panel. -/
def startSPItransfer : List Ev := [.beginTransaction, .pinWrite .TFT_CS false]

/-- `endSPItransfer`: deselect the panel and close the bus transaction. -/
def endSPItransfer : List Ev := [.pinWrite .TFT_CS true, .endTransaction]

/-- `SPItransfer(uint8_t data)`: the argument is truncated to eight bits. -/
def SPItransfer (data : Nat) : List Ev := [.transfer (data % 256)]

/-- `delayShort(ms)` with a 16-bit duration. -/
def delayShort (ms : Nat) : List Ev := [.delay (ms % 65536)]

/-- `sendLCDCommand(command)`. -/
def sendLCDCommand (command : Nat) : List Ev :=
  LCDCommandMode ++ SPItransfer command ++ LCDDataMode

/-- `setWriteRegion(x, y, width, height)` on `uint8_t` arguments; `y + height - 1` and
`x + width - 1` are computed as `int` and truncated by `SPItransfer`. -/
def setWriteRegion (k : Consts) (x y width height : Nat) : List Ev :=
  sendLCDCommand k.ST77XX_CASET ++
  SPItransfer 0 ++
  SPItransfer y ++
  SPItransfer 0 ++
  SPItransfer (u8 ((y : Int) + height - 1)) ++
  sendLCDCommand k.ST77XX_RASET ++
  SPItransfer 0 ++
  SPItransfer x ++
  SPItransfer 0 ++
  SPItransfer (u8 ((x : Int) + width - 1)) ++
  sendLCDCommand k.ST77XX_RAMWR ++
  [.region x y width height]

/-- Default arguments of the forward declaration of `setWriteRegion` (line 20), each
converted to `uint8_t`. -/
def defaultRegion (g : Geometry) : Nat × Nat × Nat × Nat :=
  (u8 (Int.tdiv ((g.TFT_WIDTH : Int) - g.WIDTH) 2),
   u8 (Int.tdiv ((g.TFT_HEIGHT : Int) - g.HEIGHT) 2),
   u8 g.WIDTH,
   u8 g.HEIGHT)

/-- `setWriteRegion()` called with no arguments. -/
def setWriteRegionDefault (g : Geometry) (k : Consts) : List Ev :=
  setWriteRegion k (defaultRegion g).1 (defaultRegion g).2.1 (defaultRegion g).2.2.1
    (defaultRegion g).2.2.2

/-! ## Pixel codec -/

/-- The three transfers that send the pixel pair `(p0, p1)` (lines 295-297). -/
def sendPair (p0 p1 : Nat) : List Ev :=
  SPItransfer (p0 >>> 4) ++
  SPItransfer (((p0 &&& 0xF) <<< 4) ||| (p1 >>> 8)) ++
  SPItransfer p1

/-- Flat fill loop `for (int i = 0; i < n; i++)` sending the pair `(color, color)`. -/
def fillLoop (color : Nat) : Nat → List Ev
  | 0 => []
  | n + 1 => sendPair color color ++ fillLoop color n

/-- Inner loop of `paintScreen` (lines 291-299): the first argument is the number of
iterations left, `4 - b`. -/
def pixelLoop (s : State) : Nat → Nat → List Ev
  | 0, _ => []
  | n + 1, pixels =>
    let p0 := if pixels &&& 0b01 ≠ 0 then s.pixelColor else s.bgColor
    let p1 := if pixels &&& 0b10 ≠ 0 then s.pixelColor else s.bgColor
    sendPair p0 p1 ++ pixelLoop s n ((pixels >>> 2) % 256)

/-- Cell loop of `paintScreen` (line 288), `for (cell = c; cell < numCells; cell += WIDTH)`;
the first argument bounds the number of iterations. -/
def cellLoop (g : Geometry) (s : State) (image : List Nat) (numCells : Nat) :
    Nat → Nat → List Ev
  | 0, _ => []
  | fuel + 1, cell =>
    if cell < numCells then
      [.load cell] ++ pixelLoop s 4 (image.getD cell 0 % 256) ++
        cellLoop g s image numCells fuel (cell + g.WIDTH)
    else []

/-- Column loop of `paintScreen` (line 286): the first argument is the number of columns
left, `WIDTH - c`. -/
def columnLoop (g : Geometry) (s : State) (image : List Nat) (numCells : Nat) :
    Nat → Nat → List Ev
  | 0, _ => []
  | n + 1, c =>
    cellLoop g s image numCells numCells c ++ columnLoop g s image numCells n (c + 1)

/-- The `uint16_t numCells = WIDTH*HEIGHT/8` of `paintScreen`. -/
def numCells (g : Geometry) : Nat := (g.WIDTH * g.HEIGHT / 8) % 65536

/-- `memset(image, 0, n)` on the caller's buffer. -/
def memsetZero (image : List Nat) (n : Nat) : List Nat :=
  List.replicate (min n image.length) 0 ++ image.drop n

/-- The nested loops of `paintScreen` (lines 286-301). -/
def paintScreenBody (g : Geometry) (s : State) (image : List Nat) : List Ev :=
  columnLoop g s image (numCells g) g.WIDTH 0

/-- `paintScreen(image, clear)`: the buffer afterwards and the events performed. -/
def paintScreen (g : Geometry) (k : Consts) (s : State) (image : List Nat) (clear : Bool) :
    List Nat × List Ev :=
  (if clear then memsetZero image (numCells g) else image,
   startSPItransfer ++ setWriteRegionDefault g k ++ paintScreenBody g s image ++
     endSPItransfer)

/-- `blank()`. -/
def blank (g : Geometry) (k : Consts) (s : State) : List Ev :=
  startSPItransfer ++ setWriteRegionDefault g k ++
    fillLoop s.bgColor (g.WIDTH * g.HEIGHT / 2) ++ endSPItransfer

/-! ## Border compositor -/

/-- The `innerGap` constant of `drawBorder`. -/
def innerGap : Int := 1

/-- The `uint8_t windowWidth = WIDTH+innerGap*2` of `drawBorder`. -/
def windowWidth (g : Geometry) : Int := u8 ((g.WIDTH : Int) + innerGap * 2)

/-- The `uint8_t windowHeight = HEIGHT+innerGap*2` of `drawBorder`. -/
def windowHeight (g : Geometry) : Int := u8 ((g.HEIGHT : Int) + innerGap * 2)

/-- The `uint8_t marginX = (TFT_WIDTH-windowWidth)/2` of `drawBorder`. -/
def marginX (g : Geometry) : Int := u8 (Int.tdiv ((g.TFT_WIDTH : Int) - windowWidth g) 2)

/-- The `uint8_t marginY = (TFT_HEIGHT-windowHeight)/2` of `drawBorder`. -/
def marginY (g : Geometry) : Int := u8 (Int.tdiv ((g.TFT_HEIGHT : Int) - windowHeight g) 2)

/-- A call `setWriteRegion(x, y, width, height)` followed by the loop
`for (int i = 0; i < bound; i++)` that sends the pair `(color, color)`. -/
def regionFill (k : Consts) (x y width height : Int) (color : Nat) (bound : Int) : List Ev :=
  setWriteRegion k (u8 x) (u8 y) (u8 width) (u8 height) ++ fillLoop color bound.toNat

/-- Events of `drawBorder` (lines 358-459). -/
def drawBorderEvents (g : Geometry) (k : Consts) (s : State) : List Ev :=
  startSPItransfer ++
  -- draw border fill
  regionFill k 0 0 g.TFT_WIDTH (marginY g - 1) s.borderFillColor
    (Int.tdiv (g.TFT_WIDTH * (marginY g - 1)) 2) ++
  regionFill k 0 (g.TFT_HEIGHT - (marginY g - 1)) g.TFT_WIDTH (marginY g - 1) s.borderFillColor
    (Int.tdiv (g.TFT_WIDTH * (marginY g - 1)) 2) ++
  regionFill k 0 (marginY g - 1) (marginX g - 1) (windowHeight g + 4) s.borderFillColor
    (Int.tdiv ((marginX g - 1) * (windowHeight g + 4)) 2) ++
  regionFill k (g.TFT_WIDTH - (marginX g - 1)) (marginY g - 1) (marginX g - 1)
    (windowHeight g + 4) s.borderFillColor
    (Int.tdiv ((marginX g - 1) * (windowHeight g + 4)) 2) ++
  -- draw border lines
  regionFill k (marginX g - 1) (marginY g - 1) (windowWidth g + 2) 1 s.borderLineColor
    (Int.tdiv (windowWidth g + 2) 2) ++
  regionFill k (marginX g - 1) (g.TFT_HEIGHT - marginY g) (windowWidth g + 2) 1
    s.borderLineColor (Int.tdiv (windowWidth g + 2) 2) ++
  regionFill k (marginX g - 1) (marginY g) 1 (windowHeight g) s.borderLineColor
    (Int.tdiv (windowHeight g) 2) ++
  regionFill k (g.TFT_WIDTH - marginX g) (marginY g) 1 (windowHeight g) s.borderLineColor
    (Int.tdiv (windowHeight g) 2) ++
  -- draw gap around display area
  regionFill k (marginX g) (marginY g) (windowWidth g) innerGap s.bgColor
    (Int.tdiv (windowWidth g * innerGap) 2) ++
  regionFill k (marginX g) (g.TFT_HEIGHT - marginY g - innerGap) (windowWidth g) innerGap
    s.bgColor (Int.tdiv (windowWidth g * innerGap) 2) ++
  regionFill k (marginX g) (marginY g + innerGap) innerGap g.HEIGHT s.bgColor
    (Int.tdiv (g.HEIGHT * innerGap) 2) ++
  regionFill k (g.TFT_WIDTH - marginX g - innerGap) (marginY g + innerGap) innerGap g.HEIGHT
    s.bgColor (Int.tdiv (g.HEIGHT * innerGap) 2) ++
  endSPItransfer

/-- `drawBorder()`: paints the border and sets `borderDrawn`. -/
def drawBorder (g : Geometry) (k : Consts) (s : State) : State × List Ev :=
  ({ s with borderDrawn := true }, drawBorderEvents g k s)

/-! ## Colour slots -/

/-- `getBorderLineColor()`. -/
def getBorderLineColor (s : State) : Nat := s.borderLineColor

/-- `setBorderLineColor(color)`. -/
def setBorderLineColor (g : Geometry) (k : Consts) (s : State) (color : Nat) :
    State × List Ev :=
  let s1 := { s with borderLineColor := color % 65536 }
  if s1.borderDrawn then drawBorder g k s1 else (s1, [])

/-- `getBorderFillColor()`. -/
def getBorderFillColor (s : State) : Nat := s.borderFillColor

/-- `setBorderFillColor(color)`. -/
def setBorderFillColor (g : Geometry) (k : Consts) (s : State) (color : Nat) :
    State × List Ev :=
  let s1 := { s with borderFillColor := color % 65536 }
  if s1.borderDrawn then drawBorder g k s1 else (s1, [])

/-- `getPixelColor()`. -/
def getPixelColor (s : State) : Nat := s.pixelColor

/-- `setPixelColor(color)`. -/
def setPixelColor (s : State) (color : Nat) : State × List Ev :=
  ({ s with pixelColor := color % 65536 }, [])

/-- `getBackgroundColor()`. -/
def getBackgroundColor (s : State) : Nat := s.bgColor

/-- `setBackgroundColor(color)`. -/
def setBackgroundColor (g : Geometry) (k : Consts) (s : State) (color : Nat) :
    State × List Ev :=
  let s1 := { s with bgColor := color % 65536 }
  if s1.borderDrawn then drawBorder g k s1 else (s1, [])

/-! ## LED strip -/

/-- The `uint8_t` channel value of `drawLEDs` (lines 563-565):
`inverted ? 0xFF - LEDs[i] : LEDs[i]`. -/
def ledChannel (s : State) (i : Nat) : Nat :=
  if s.inverted then u8 (0xFF - (s.LEDs.getD i 0 : Int)) else u8 (s.LEDs.getD i 0)

/-- Quantisation of a channel to four bits, `(v*0xF)/0xFF` (line 572). -/
def ledQuant (v : Nat) : Nat := (v * 0xF) / 0xFF

/-- The `uint16_t color` computed in the loop of `drawLEDs` (line 572). -/
def ledColor (k : Consts) (s : State) : Nat :=
  k.COLOR (ledQuant (ledChannel s k.RED_LED)) (ledQuant (ledChannel s k.GREEN_LED))
    (ledQuant (ledChannel s k.BLUE_LED)) % 65536

/-- `drawLEDs()`. -/
def drawLEDs (g : Geometry) (k : Consts) (s : State) : List Ev :=
  startSPItransfer ++
  regionFill k 0 (if s.MADCTL &&& k.ST77XX_MADCTL_MX ≠ 0 then 0 else (g.TFT_HEIGHT : Int) - 4)
    g.TFT_WIDTH 4 (ledColor k s) (Int.tdiv ((g.TFT_WIDTH : Int) * 5) 2) ++
  endSPItransfer

/-- `setRGBled(red, green, blue)`. -/
def setRGBled (g : Geometry) (k : Consts) (s : State) (red green blue : Nat) :
    State × List Ev :=
  let l0 := s.LEDs.set k.RED_LED (red % 256)
  let l1 := l0.set k.GREEN_LED (green % 256)
  let l2 := l1.set k.BLUE_LED (blue % 256)
  let s1 := { s with LEDs := l2 }
  (s1, drawLEDs g k s1)

/-- `setRGBled(color, val)`. -/
def setRGBled1 (g : Geometry) (k : Consts) (s : State) (color val : Nat) : State × List Ev :=
  let s1 := { s with LEDs := s.LEDs.set (color % 256) (val % 256) }
  (s1, drawLEDs g k s1)

/-- `digitalWriteRGB(red, green, blue)`. -/
def digitalWriteRGB (g : Geometry) (k : Consts) (s : State) (red green blue : Nat) :
    State × List Ev :=
  let l0 := s.LEDs.set k.RED_LED (if red % 256 = k.RGB_ON then 0xFF else 0)
  let l1 := l0.set k.GREEN_LED (if green % 256 = k.RGB_ON then 0xFF else 0)
  let l2 := l1.set k.BLUE_LED (if blue % 256 = k.RGB_ON then 0xFF else 0)
  let s1 := { s with LEDs := l2 }
  (s1, drawLEDs g k s1)

/-- `digitalWriteRGB(color, val)`. -/
def digitalWriteRGB1 (g : Geometry) (k : Consts) (s : State) (color val : Nat) :
    State × List Ev :=
  let v := if val % 256 = k.RGB_ON then 0xFF else 0
  let s1 := { s with LEDs := s.LEDs.set (color % 256) v }
  (s1, drawLEDs g k s1)

/-! ## Orientation and inversion -/

/-- `invert(inverse)`. -/
def invert (g : Geometry) (k : Consts) (s : State) (inverse : Bool) : State × List Ev :=
  if inverse = s.inverted then (s, [])
  else
    let s1 := { s with inverted := inverse }
    (s1, drawLEDs g k s1 ++ startSPItransfer ++
      sendLCDCommand (if inverse then k.ST77XX_INVON else k.ST77XX_INVOFF) ++ endSPItransfer)

/-- `allPixelsOn(on)`; the parameter `on` is called `allOn` here. -/
def allPixelsOn (k : Consts) (allOn : Bool) : List Ev :=
  startSPItransfer ++ sendLCDCommand (if allOn then k.ST77XX_DISPOFF else k.ST77XX_DISPON) ++
    endSPItransfer ++ delayShort 100

/-- The compound assignment `reg |= mask` on a `uint8_t` register. -/
def setBits (reg mask : Nat) : Nat := (reg ||| mask) % 256

/-- The compound assignment `reg &= ~mask` on a `uint8_t` register: the bits of `mask`
are cleared among the low eight bits. -/
def clearBits (reg mask : Nat) : Nat := (reg &&& (0xFF ^^^ (mask % 256))) % 256

/-- `flipVertical(flipped)`. -/
def flipVertical (k : Consts) (s : State) (flipped : Bool) : State × List Ev :=
  let m :=
    if flipped then setBits s.MADCTL k.ST77XX_MADCTL_MX
    else clearBits s.MADCTL k.ST77XX_MADCTL_MX
  let s1 := { s with MADCTL := m }
  (s1, startSPItransfer ++ sendLCDCommand k.ST77XX_MADCTL ++ SPItransfer s1.MADCTL ++
    endSPItransfer)

/-- `flipHorizontal(flipped)`. -/
def flipHorizontal (k : Consts) (s : State) (flipped : Bool) : State × List Ev :=
  let m :=
    if flipped then clearBits s.MADCTL k.ST77XX_MADCTL_MY
    else setBits s.MADCTL k.ST77XX_MADCTL_MY
  let s1 := { s with MADCTL := m }
  (s1, startSPItransfer ++ sendLCDCommand k.ST77XX_MADCTL ++ SPItransfer s1.MADCTL ++
    endSPItransfer)

/-- `displayOff()`. -/
def displayOff (k : Consts) : List Ev :=
  startSPItransfer ++ sendLCDCommand k.ST77XX_SLPIN ++ endSPItransfer ++ delayShort 150

/-- `displayOn()`. -/
def displayOn (k : Consts) : List Ev :=
  startSPItransfer ++ sendLCDCommand k.ST77XX_SLPOUT ++ endSPItransfer ++ delayShort 150

/-! ## Panel bring-up -/

/-- Parameter bytes sent one by one with `SPItransfer`. -/
def sendBytes : List Nat → List Ev
  | [] => []
  | b :: bs => SPItransfer b ++ sendBytes bs

/-- `bootTFT()`. -/
def bootTFT (g : Geometry) (k : Consts) (s : State) : State × List Ev :=
  ((drawBorder g k s).1,
   [.pinMode .TFT_CS, .pinMode .TFT_DC, .pinMode .TFT_RST, .pinWrite .TFT_CS true] ++
   delayShort 5 ++ [.pinWrite .TFT_RST true] ++ delayShort 5 ++
   LCDCommandMode ++
   startSPItransfer ++
   sendLCDCommand k.ST77XX_SWRESET ++ delayShort 150 ++
   sendLCDCommand k.ST77XX_SLPOUT ++ delayShort 150 ++
   sendLCDCommand k.ST7735_FRMCTR1 ++ sendBytes [0x01, 0x2C, 0x2D] ++
   sendLCDCommand k.ST77XX_MADCTL ++ SPItransfer s.MADCTL ++
   sendLCDCommand k.ST77XX_COLMOD ++ SPItransfer 0x03 ++
   sendLCDCommand k.ST7735_GMCTRP1 ++
   sendBytes [0x02, 0x1c, 0x07, 0x12, 0x37, 0x32, 0x29, 0x2D,
              0x29, 0x25, 0x2B, 0x39, 0x00, 0x01, 0x03, 0x10] ++
   sendLCDCommand k.ST7735_GMCTRN1 ++
   sendBytes [0x03, 0x1D, 0x07, 0x06, 0x2E, 0x2C, 0x29, 0x2D,
              0x2E, 0x2E, 0x37, 0x3F, 0x00, 0x00, 0x02, 0x10] ++
   regionFill k 0 0 g.TFT_WIDTH g.TFT_HEIGHT s.bgColor
     (Int.tdiv ((g.TFT_WIDTH : Int) * g.TFT_HEIGHT) 2) ++
   sendLCDCommand k.ST77XX_DISPON ++ delayShort 100 ++
   endSPItransfer ++
   LCDDataMode ++
   (drawBorder g k s).2 ++
   -- clear screen
   startSPItransfer ++ setWriteRegionDefault g k ++
   fillLoop s.bgColor (g.WIDTH * g.HEIGHT / 2) ++ endSPItransfer)

/-! ## Reading a trace -/

/-- Bytes handed to `SPItransfer`, in order. -/
def transferred : List Ev → List Nat
  | [] => []
  | .transfer b :: es => b :: transferred es
  | _ :: es => transferred es

/-- Decoder of the 12-bit wire format: every three bytes carry two pixels. -/
def decodePixels : List Nat → List Nat
  | b0 :: b1 :: b2 :: rest =>
    (b0 * 16 + b1 / 16) :: ((b1 % 16) * 256 + b2) :: decodePixels rest
  | _ => []

/-- What the panel sees on the bus. -/
inductive Wire
  | txBegin
  | txEnd
  | cmd (b : Nat)
  | dat (b : Nat)
  deriving DecidableEq, Repr

/-- Level of the data/command line after a run of events (`true` is data mode). -/
def dcAfter (dc : Bool) : List Ev → Bool
  | [] => dc
  | .pinWrite .TFT_DC v :: es => dcAfter v es
  | _ :: es => dcAfter dc es

/-- Bus view of a run of events, started with the data/command line at level `dc`:
a byte transferred while the line is low is a command, otherwise it is data. -/
def wire (dc : Bool) : List Ev → List Wire
  | [] => []
  | .pinWrite .TFT_DC v :: es => wire v es
  | .beginTransaction :: es => .txBegin :: wire dc es
  | .endTransaction :: es => .txEnd :: wire dc es
  | .transfer b :: es => (if dc then Wire.dat b else Wire.cmd b) :: wire dc es
  | _ :: es => wire dc es

/-- Number of data bytes transferred from the head of a trace before the next command byte
or the end of the transaction. -/
def dataRun (dc : Bool) : List Ev → Nat
  | [] => 0
  | .pinWrite .TFT_DC v :: es => dataRun v es
  | .endTransaction :: _ => 0
  | .transfer _ :: es => if dc then dataRun dc es + 1 else 0
  | _ :: es => dataRun dc es

/-- One opened write region: the arguments of the `setWriteRegion` call and the number of
data bytes that followed it before the next command byte or the end of the transaction. -/
structure Burst where
  x : Nat
  y : Nat
  width : Nat
  height : Nat
  bytes : Nat
  deriving DecidableEq, Repr

/-- The write regions opened in a trace, in order. -/
def bursts : List Ev → List Burst
  | [] => []
  | .region x y width height :: es => ⟨x, y, width, height, dataRun true es⟩ :: bursts es
  | _ :: es => bursts es

/-- Indices of the framebuffer cells read in a trace, in order. -/
def loads : List Ev → List Nat
  | [] => []
  | .load cell :: es => cell :: loads es
  | _ :: es => loads es

/-- Colour that `paintScreen` selects for a framebuffer bit (lines 293-294). -/
def inkOrPaper (s : State) (bit : Bool) : Nat := if bit then s.pixelColor else s.bgColor

/-- Events of one iteration of the cell loop of `paintScreen`: the read of `image[cell]`
followed by the four pixel pairs of that byte. -/
def cellEvents (s : State) (image : List Nat) (cell : Nat) : List Ev :=
  [.load cell] ++ pixelLoop s 4 (image.getD cell 0 % 256)

/-- Events that follow the first return of `setWriteRegion` in a trace. -/
def afterRegion : List Ev → List Ev
  | [] => []
  | .region _ _ _ _ :: es => es
  | _ :: es => afterRegion es

/-- Pixels, decoded from the wire format, that a trace sends after its write-region
header. -/
def pixelStream (es : List Ev) : List Nat := decodePixels (transferred (afterRegion es))

/-- The twelve write regions of `drawBorder` for the DotMG geometry, with the number of
data bytes sent into each. -/
def dotMGBorderBursts : List Burst :=
  [⟨0, 0, 160, 30, 7200⟩, ⟨0, 98, 160, 30, 7200⟩, ⟨0, 30, 14, 70, 1470⟩,
   ⟨146, 30, 14, 70, 1470⟩, ⟨14, 30, 132, 1, 198⟩, ⟨14, 97, 132, 1, 198⟩,
   ⟨14, 31, 1, 66, 99⟩, ⟨145, 31, 1, 66, 99⟩, ⟨15, 31, 130, 1, 195⟩,
   ⟨15, 96, 130, 1, 195⟩, ⟨15, 32, 1, 64, 96⟩, ⟨144, 32, 1, 64, 96⟩]

/-! ## Painted regions and call tables -/

/-- Data bytes transferred from the head of a trace before the next command byte or the
end of the transaction. -/
def dataBurst (dc : Bool) : List Ev → List Nat
  | [] => []
  | .pinWrite .TFT_DC v :: es => dataBurst v es
  | .endTransaction :: _ => []
  | .transfer b :: es => if dc then b :: dataBurst dc es else []
  | _ :: es => dataBurst dc es

/-- A rectangle of panel pixels: origin and extent. -/
structure Rect where
  x : Nat
  y : Nat
  width : Nat
  height : Nat
  deriving DecidableEq, Repr

/-- The pixel `(px, py)` lies in the rectangle. -/
def Rect.covers (r : Rect) (px py : Nat) : Prop :=
  r.x ≤ px ∧ px < r.x + r.width ∧ r.y ≤ py ∧ py < r.y + r.height

/-- Interval test: the two rectangles are apart along one of the axes. -/
def Rect.separate (a b : Rect) : Bool :=
  decide (a.x + a.width ≤ b.x) || decide (b.x + b.width ≤ a.x) ||
    decide (a.y + a.height ≤ b.y) || decide (b.y + b.height ≤ a.y)

/-- One opened write region with the data bytes sent into it before the next command
byte or the end of the transaction. -/
structure Paint where
  rect : Rect
  data : List Nat
  deriving DecidableEq, Repr

/-- The write regions opened in a trace, in order, each with the data sent into it. -/
def paints : List Ev → List Paint
  | [] => []
  | .region x y width height :: es =>
    ⟨⟨x, y, width, height⟩, dataBurst true es⟩ :: paints es
  | _ :: es => paints es

/-- Rectangle of an opened write region. -/
def Burst.rect (b : Burst) : Rect := ⟨b.x, b.y, b.width, b.height⟩

/-- Bytes of `n` triplets that each carry the pixel pair `(color, color)`. -/
def fillBytes (color n : Nat) : List Nat := transferred (fillLoop color n)

/-- The colour variable that a flat fill of the source sends. -/
inductive Slot
  | borderFill
  | borderLine
  | background
  | led
  deriving DecidableEq, Repr

/-- Value of the colour variable in a state (`led` is the colour computed by `drawLEDs`). -/
def Slot.color (k : Consts) (s : State) : Slot → Nat
  | .borderFill => s.borderFillColor
  | .borderLine => s.borderLineColor
  | .background => s.bgColor
  | .led => ledColor k s

/-- One call site `setWriteRegion(x, y, width, height)` of the source with the fill loop
that follows it: the argument expressions as `int` values, before their conversion to
`uint8_t`, the colour variable sent and the loop bound. -/
structure FillCall where
  x : Int
  y : Int
  width : Int
  height : Int
  slot : Slot
  bound : Int
  deriving DecidableEq, Repr

/-- Rectangle that a call addresses, after the conversion of its arguments to `uint8_t`. -/
def FillCall.rect (c : FillCall) : Rect := ⟨u8 c.x, u8 c.y, u8 c.width, u8 c.height⟩

/-- Events of a call site. -/
def FillCall.events (k : Consts) (s : State) (c : FillCall) : List Ev :=
  regionFill k c.x c.y c.width c.height (c.slot.color k s) c.bound

/-- The twelve call sites of `drawBorder`, in source order (lines 360-457). -/
def drawBorderCalls (g : Geometry) : List FillCall :=
  [⟨0, 0, g.TFT_WIDTH, marginY g - 1, .borderFill,
      Int.tdiv (g.TFT_WIDTH * (marginY g - 1)) 2⟩,
   ⟨0, g.TFT_HEIGHT - (marginY g - 1), g.TFT_WIDTH, marginY g - 1, .borderFill,
      Int.tdiv (g.TFT_WIDTH * (marginY g - 1)) 2⟩,
   ⟨0, marginY g - 1, marginX g - 1, windowHeight g + 4, .borderFill,
      Int.tdiv ((marginX g - 1) * (windowHeight g + 4)) 2⟩,
   ⟨g.TFT_WIDTH - (marginX g - 1), marginY g - 1, marginX g - 1, windowHeight g + 4,
      .borderFill, Int.tdiv ((marginX g - 1) * (windowHeight g + 4)) 2⟩,
   ⟨marginX g - 1, marginY g - 1, windowWidth g + 2, 1, .borderLine,
      Int.tdiv (windowWidth g + 2) 2⟩,
   ⟨marginX g - 1, g.TFT_HEIGHT - marginY g, windowWidth g + 2, 1, .borderLine,
      Int.tdiv (windowWidth g + 2) 2⟩,
   ⟨marginX g - 1, marginY g, 1, windowHeight g, .borderLine,
      Int.tdiv (windowHeight g) 2⟩,
   ⟨g.TFT_WIDTH - marginX g, marginY g, 1, windowHeight g, .borderLine,
      Int.tdiv (windowHeight g) 2⟩,
   ⟨marginX g, marginY g, windowWidth g, innerGap, .background,
      Int.tdiv (windowWidth g * innerGap) 2⟩,
   ⟨marginX g, g.TFT_HEIGHT - marginY g - innerGap, windowWidth g, innerGap, .background,
      Int.tdiv (windowWidth g * innerGap) 2⟩,
   ⟨marginX g, marginY g + innerGap, innerGap, g.HEIGHT, .background,
      Int.tdiv (g.HEIGHT * innerGap) 2⟩,
   ⟨g.TFT_WIDTH - marginX g - innerGap, marginY g + innerGap, innerGap, g.HEIGHT,
      .background, Int.tdiv (g.HEIGHT * innerGap) 2⟩]

/-- The call site of `drawLEDs` (lines 569-570). -/
def drawLEDsCall (g : Geometry) (k : Consts) (s : State) : FillCall :=
  ⟨0, if s.MADCTL &&& k.ST77XX_MADCTL_MX ≠ 0 then 0 else (g.TFT_HEIGHT : Int) - 4,
    g.TFT_WIDTH, 4, .led, Int.tdiv ((g.TFT_WIDTH : Int) * 5) 2⟩

/-- The full-panel fill of `bootTFT` (lines 117-118). -/
def bootFillCall (g : Geometry) : FillCall :=
  ⟨0, 0, g.TFT_WIDTH, g.TFT_HEIGHT, .background,
    Int.tdiv ((g.TFT_WIDTH : Int) * g.TFT_HEIGHT) 2⟩

/-- The call `setWriteRegion()` with the default arguments of line 20, followed by the
background fill of `blank` and of the end of `bootTFT` (`WIDTH*HEIGHT/2` iterations). -/
def defaultFillCall (g : Geometry) : FillCall :=
  ⟨Int.tdiv ((g.TFT_WIDTH : Int) - g.WIDTH) 2, Int.tdiv ((g.TFT_HEIGHT : Int) - g.HEIGHT) 2,
    g.WIDTH, g.HEIGHT, .background, ((g.WIDTH * g.HEIGHT / 2 : Nat) : Int)⟩

/-- No argument of the call, and neither end coordinate `x+width-1`, `y+height-1`, leaves
the range of `uint8_t`; the rectangle is not empty and lies inside the panel. -/
def FillCall.inPanel (g : Geometry) (c : FillCall) : Prop :=
  0 ≤ c.x ∧ c.x < 256 ∧ 0 ≤ c.y ∧ c.y < 256 ∧
  1 ≤ c.width ∧ c.width < 256 ∧ 1 ≤ c.height ∧ c.height < 256 ∧
  0 ≤ c.x + c.width - 1 ∧ c.x + c.width - 1 < 256 ∧
  0 ≤ c.y + c.height - 1 ∧ c.y + c.height - 1 < 256 ∧
  c.x + c.width ≤ g.TFT_WIDTH ∧ c.y + c.height ≤ g.TFT_HEIGHT

/-- The three bytes of the wire format for the pixel pair `(a, b)` (lines 295-297). -/
def pairBytes (a b : Nat) : List Nat :=
  [(a >>> 4) % 256, (((a &&& 0xF) <<< 4) ||| (b >>> 8)) % 256, b % 256]

/-- The two rectangles share no panel pixel. -/
def Rect.apart (a b : Rect) : Prop := ∀ px py, ¬ (a.covers px py ∧ b.covers px py)

/-- The twelve rectangles of `drawBorder` for the DotMG geometry, in source order. -/
def dotMGBorderRects : List Rect :=
  [⟨0, 0, 160, 30⟩, ⟨0, 98, 160, 30⟩, ⟨0, 30, 14, 70⟩, ⟨146, 30, 14, 70⟩,
   ⟨14, 30, 132, 1⟩, ⟨14, 97, 132, 1⟩, ⟨14, 31, 1, 66⟩, ⟨145, 31, 1, 66⟩,
   ⟨15, 31, 130, 1⟩, ⟨15, 96, 130, 1⟩, ⟨15, 32, 1, 64⟩, ⟨144, 32, 1, 64⟩]

/-- Gamma table sent after GMCTRP1 (lines 82-97). -/
def gammaPositive : List Nat :=
  [0x02, 0x1c, 0x07, 0x12, 0x37, 0x32, 0x29, 0x2D, 0x29, 0x25, 0x2B, 0x39, 0x00, 0x01, 0x03, 0x10]

/-- Gamma table sent after GMCTRN1 (lines 100-115). -/
def gammaNegative : List Nat :=
  [0x03, 0x1D, 0x07, 0x06, 0x2E, 0x2C, 0x29, 0x2D, 0x2E, 0x2E, 0x37, 0x3F, 0x00, 0x00, 0x02, 0x10]

/-! ## Trace readers distribute over concatenation -/

theorem transferred_append (a b : List Ev) :
    transferred (a ++ b) = transferred a ++ transferred b := by
  induction a with
  | nil => rfl
  | cons e es ih => cases e <;> simp [transferred, ih]

theorem loads_append (a b : List Ev) : loads (a ++ b) = loads a ++ loads b := by
  induction a with
  | nil => rfl
  | cons e es ih => cases e <;> simp [loads, ih]

theorem transferred_sendPair (a b : Nat) :
    transferred (sendPair a b) =
      [(a >>> 4) % 256, (((a &&& 0xF) <<< 4) ||| (b >>> 8)) % 256, b % 256] := rfl

/-! ## Codec lemmas -/

theorem or_nibbles : ∀ x < 16, ∀ y < 16, (x <<< 4) ||| y = x * 16 + y := by decide

theorem decode_sendPair (a b : Nat) (ha : a < 4096) (hb : b < 4096) (rest : List Ev) :
    decodePixels (transferred (sendPair a b ++ rest)) =
      a :: b :: decodePixels (transferred rest) := by
  have h1 : a &&& 0xF = a % 16 := Nat.and_pow_two_sub_one_eq_mod a 4
  have h2 := or_nibbles (a % 16) (Nat.mod_lt _ (by norm_num)) (b >>> 8)
    (by rw [Nat.shiftRight_eq_div_pow]; omega)
  simp only [sendPair, SPItransfer, List.cons_append, List.nil_append, transferred,
    decodePixels, h1, h2]
  rw [Nat.shiftRight_eq_div_pow, Nat.shiftRight_eq_div_pow]
  congr 1
  · omega
  · congr 1
    omega

theorem and_two_pow_ne_zero (p i : Nat) : p &&& 2 ^ i ≠ 0 ↔ p.testBit i = true := by
  constructor
  · intro h
    by_contra hb
    apply h
    apply Nat.eq_of_testBit_eq
    intro j
    simp only [Nat.testBit_and, Nat.testBit_two_pow, Nat.zero_testBit]
    by_cases hij : i = j
    · subst hij; simp [hb]
    · simp [hij]
  · intro hb h
    have := congrArg (fun x => Nat.testBit x i) h
    simp [Nat.testBit_and, Nat.testBit_two_pow, hb] at this

theorem select_bit0 (s : State) (p : Nat) :
    (if p &&& 0b01 ≠ 0 then s.pixelColor else s.bgColor) = inkOrPaper s (p.testBit 0) := by
  have hbit : p &&& 0b01 ≠ 0 ↔ p.testBit 0 = true := and_two_pow_ne_zero p 0
  unfold inkOrPaper
  by_cases h : p.testBit 0 = true
  · rw [if_pos (hbit.2 h), if_pos h]
  · rw [if_neg (fun h2 => h (hbit.1 h2)), if_neg h]

theorem select_bit1 (s : State) (p : Nat) :
    (if p &&& 0b10 ≠ 0 then s.pixelColor else s.bgColor) = inkOrPaper s (p.testBit 1) := by
  have hbit : p &&& 0b10 ≠ 0 ↔ p.testBit 1 = true := and_two_pow_ne_zero p 1
  unfold inkOrPaper
  by_cases h : p.testBit 1 = true
  · rw [if_pos (hbit.2 h), if_pos h]
  · rw [if_neg (fun h2 => h (hbit.1 h2)), if_neg h]

theorem inkOrPaper_lt (s : State) (hi : s.pixelColor < 4096) (hb : s.bgColor < 4096)
    (b : Bool) : inkOrPaper s b < 4096 := by
  cases b <;> simp [inkOrPaper, hi, hb]

theorem decode_pixelLoop (s : State) (hi : s.pixelColor < 4096) (hb : s.bgColor < 4096) :
    ∀ (n p : Nat) (rest : List Ev), p < 256 →
      decodePixels (transferred (pixelLoop s n p ++ rest)) =
        (List.range (2 * n)).map (fun j => inkOrPaper s (p.testBit j)) ++
          decodePixels (transferred rest) := by
  intro n
  induction n with
  | zero => intro p rest _; simp [pixelLoop]
  | succ n ih =>
    intro p rest hp
    have hp2 : (p >>> 2) % 256 = p >>> 2 := by
      rw [Nat.shiftRight_eq_div_pow]; omega
    have hlt : p >>> 2 < 256 := by rw [Nat.shiftRight_eq_div_pow]; omega
    simp only [pixelLoop, List.append_assoc, hp2]
    rw [select_bit0, select_bit1,
      decode_sendPair _ _ (inkOrPaper_lt s hi hb _) (inkOrPaper_lt s hi hb _), ih _ _ hlt]
    have hr : 2 * (n + 1) = 2 * n + 1 + 1 := by ring
    rw [hr, List.range_succ_eq_map, List.range_succ_eq_map]
    simp only [List.map_cons, List.map_map, List.cons_append, Nat.testBit_shiftRight]
    congr 2
    apply congrArg (· ++ _)
    apply List.map_congr_left
    intro j _
    simp only [Function.comp]
    congr 2
    omega

theorem transferred_pixelLoop_length (s : State) :
    ∀ (n p : Nat), (transferred (pixelLoop s n p)).length = 3 * n := by
  intro n
  induction n with
  | zero => intro p; simp [pixelLoop, transferred]
  | succ n ih =>
    intro p
    rw [pixelLoop, transferred_append, transferred_sendPair, List.length_append, ih]
    simp only [List.length_cons, List.length_nil]
    omega

/-- Claim C1: for a framebuffer byte `p` and 12-bit ink and background colours, the inner
loop of `paintScreen` transfers twelve bytes, and decoding them two pixels per triplet
gives eight pixels of which pixel `k` is the ink colour when bit `k` of `p` is set and
the background colour otherwise. -/
theorem C1_pixel_codec_round_trip (s : State) (p : Nat) (hp : p < 256)
    (hink : s.pixelColor < 4096) (hbg : s.bgColor < 4096) :
    (transferred (pixelLoop s 4 p)).length = 12 ∧
    (decodePixels (transferred (pixelLoop s 4 p))).length = 8 ∧
    ∀ k, k < 8 →
      (decodePixels (transferred (pixelLoop s 4 p)))[k]? =
        some (if p.testBit k then s.pixelColor else s.bgColor) := by
  have h := decode_pixelLoop s hink hbg 4 p [] hp
  have hnil : decodePixels (transferred ([] : List Ev)) = [] := rfl
  rw [List.append_nil, hnil, List.append_nil] at h
  refine ⟨transferred_pixelLoop_length s 4 p, ?_, ?_⟩
  · rw [h]; simp
  · intro k hk
    rw [h, List.getElem?_map, List.getElem?_range (by omega)]
    rfl

/-- Witness for C1: the byte `0xA5` with white ink on a black background. -/
theorem C1_pixel_codec_round_trip_witness :
    (0xA5 < 256 ∧ (State.init dotMGConsts).pixelColor < 4096 ∧
      (State.init dotMGConsts).bgColor < 4096) ∧
    (transferred (pixelLoop (State.init dotMGConsts) 4 0xA5)).length = 12 ∧
    (decodePixels (transferred (pixelLoop (State.init dotMGConsts) 4 0xA5))).length = 8 ∧
    ∀ k, k < 8 →
      (decodePixels (transferred (pixelLoop (State.init dotMGConsts) 4 0xA5)))[k]? =
        some (if Nat.testBit 0xA5 k then (State.init dotMGConsts).pixelColor
          else (State.init dotMGConsts).bgColor) :=
  ⟨by decide, C1_pixel_codec_round_trip (State.init dotMGConsts) 0xA5 (by decide) (by decide)
    (by decide)⟩

/-! ## Traversal order of `paintScreen` -/
theorem cellLoop_closed (g : Geometry) (s : State) (image : List Nat) (m c : Nat)
    (hc : c < g.WIDTH) :
    ∀ (d i fuel : Nat), i + d = m → d ≤ fuel →
      cellLoop g s image (g.WIDTH * m) fuel (c + g.WIDTH * i) =
        (List.range' i d).flatMap (fun j => cellEvents s image (c + g.WIDTH * j)) := by
  intro d
  induction d with
  | zero =>
    intro i fuel hi _
    have hge : ¬ (c + g.WIDTH * i < g.WIDTH * m) := by
      have : i = m := by omega
      subst this
      omega
    cases fuel with
    | zero => simp [cellLoop]
    | succ f => simp [cellLoop, hge]
  | succ d ih =>
    intro i fuel hi hf
    obtain ⟨f, rfl⟩ : ∃ f, fuel = f + 1 := ⟨fuel - 1, by omega⟩
    have hlt : c + g.WIDTH * i < g.WIDTH * m := by
      have h1 : g.WIDTH * (i + 1) ≤ g.WIDTH * m := Nat.mul_le_mul_left _ (by omega)
      rw [Nat.mul_add, Nat.mul_one] at h1
      omega
    have hnext : c + g.WIDTH * i + g.WIDTH = c + g.WIDTH * (i + 1) := by ring
    rw [cellLoop, if_pos hlt, hnext, ih (i + 1) f (by omega) (by omega)]
    simp [List.range'_succ, cellEvents]

theorem columnLoop_closed (g : Geometry) (s : State) (image : List Nat) (m : Nat)
    (hfuel : m ≤ g.WIDTH * m) :
    ∀ (n c : Nat), c + n ≤ g.WIDTH →
      columnLoop g s image (g.WIDTH * m) n c =
        (List.range' c n).flatMap (fun col =>
          (List.range' 0 m).flatMap (fun j => cellEvents s image (col + g.WIDTH * j))) := by
  intro n
  induction n with
  | zero => intro c _; simp [columnLoop]
  | succ n ih =>
    intro c hc
    have h0 := cellLoop_closed g s image m c (by omega) m 0 (g.WIDTH * m) (by omega) hfuel
    simp only [Nat.mul_zero, Nat.add_zero] at h0
    rw [columnLoop, h0, ih (c + 1) (by omega)]
    simp [List.range'_succ]

theorem numCells_eq (g : Geometry) (h8 : 8 ∣ g.HEIGHT) (hfit : g.WIDTH * g.HEIGHT / 8 < 65536) :
    numCells g = g.WIDTH * (g.HEIGHT / 8) := by
  unfold numCells
  rw [Nat.mod_eq_of_lt hfit]
  obtain ⟨q, hq⟩ := h8
  rw [hq, Nat.mul_div_cancel_left q (by norm_num : 0 < 8), ← Nat.mul_assoc, Nat.mul_comm g.WIDTH 8,
    Nat.mul_assoc, Nat.mul_div_cancel_left _ (by norm_num : 0 < 8)]

theorem paintScreenBody_closed (g : Geometry) (s : State) (image : List Nat)
    (h8 : 8 ∣ g.HEIGHT) (hfit : g.WIDTH * g.HEIGHT / 8 < 65536) :
    paintScreenBody g s image =
      (List.range' 0 g.WIDTH).flatMap (fun col =>
        (List.range' 0 (g.HEIGHT / 8)).flatMap (fun j =>
          cellEvents s image (col + g.WIDTH * j))) := by
  unfold paintScreenBody
  rw [numCells_eq g h8 hfit]
  rcases Nat.eq_zero_or_pos g.WIDTH with h0 | hpos
  · simp [h0, columnLoop]
  · exact columnLoop_closed g s image _ (Nat.le_mul_of_pos_left _ hpos) g.WIDTH 0 (by omega)



theorem getElem?_flatMap_uniform {α β : Type} (f : α → List β) (L : Nat)
    (hL : ∀ x, (f x).length = L) :
    ∀ (l : List α) (i j : Nat), j < L →
      (l.flatMap f)[i * L + j]? = (l[i]?).bind (fun x => (f x)[j]?) := by
  intro l
  induction l with
  | nil => intro i j _; simp
  | cons x xs ih =>
    intro i j hj
    rw [List.flatMap_cons]
    cases i with
    | zero =>
      simp only [Nat.zero_mul, Nat.zero_add, List.getElem?_cons_zero, Option.some_bind]
      exact List.getElem?_append_left (by rw [hL]; exact hj)
    | succ i =>
      have hge : (f x).length ≤ (i + 1) * L + j := by
        rw [hL, Nat.add_mul]; omega
      rw [List.getElem?_append_right hge, hL]
      have : (i + 1) * L + j - L = i * L + j := by
        rw [Nat.add_mul]; omega
      rw [this, ih i j hj]
      simp

theorem decode_flatMap {α : Type} (f : α → List Ev) (pix : α → List Nat)
    (h : ∀ x rest, decodePixels (transferred (f x ++ rest)) =
      pix x ++ decodePixels (transferred rest)) :
    ∀ (l : List α) (rest : List Ev),
      decodePixels (transferred (l.flatMap f ++ rest)) =
        l.flatMap pix ++ decodePixels (transferred rest) := by
  intro l
  induction l with
  | nil => intro rest; simp
  | cons x xs ih =>
    intro rest
    rw [List.flatMap_cons, List.flatMap_cons, List.append_assoc, h, ih, List.append_assoc]

theorem decode_cellEvents (s : State) (hi : s.pixelColor < 4096) (hb : s.bgColor < 4096)
    (image : List Nat) (cell : Nat) (rest : List Ev) :
    decodePixels (transferred (cellEvents s image cell ++ rest)) =
      (List.range 8).map (fun b => inkOrPaper s ((image.getD cell 0).testBit b)) ++
        decodePixels (transferred rest) := by
  have hlt : image.getD cell 0 % 256 < 256 := Nat.mod_lt _ (by norm_num)
  have h := decode_pixelLoop s hi hb 4 (image.getD cell 0 % 256) rest hlt
  unfold cellEvents
  rw [List.append_assoc, List.singleton_append]
  have hload : ∀ es : List Ev, transferred (Ev.load cell :: es) = transferred es := fun _ => rfl
  rw [hload, h]
  congr 1
  apply List.map_congr_left
  intro j hj
  have hj8 : j < 8 := by simpa using hj
  rw [show (256 : Nat) = 2 ^ 8 from rfl, Nat.testBit_mod_two_pow]
  simp [hj8]

theorem afterRegion_paint (g : Geometry) (k : Consts) (rest : List Ev) :
    afterRegion (startSPItransfer ++ setWriteRegionDefault g k ++ rest) = rest := by
  simp [startSPItransfer, setWriteRegionDefault, setWriteRegion, sendLCDCommand,
    LCDCommandMode, LCDDataMode, SPItransfer, afterRegion]

theorem pixelStream_paintScreen (g : Geometry) (k : Consts) (s : State) (image : List Nat)
    (clear : Bool) (h8 : 8 ∣ g.HEIGHT) (hfit : g.WIDTH * g.HEIGHT / 8 < 65536)
    (hi : s.pixelColor < 4096) (hb : s.bgColor < 4096) :
    pixelStream (paintScreen g k s image clear).2 =
      (List.range' 0 g.WIDTH).flatMap (fun col =>
        (List.range' 0 (g.HEIGHT / 8)).flatMap (fun j =>
          (List.range 8).map (fun b =>
            inkOrPaper s ((image.getD (col + g.WIDTH * j) 0).testBit b)))) := by
  unfold pixelStream paintScreen
  simp only
  rw [List.append_assoc, afterRegion_paint, paintScreenBody_closed g s image h8 hfit]
  rw [decode_flatMap _ _ (fun col rest => decode_flatMap _ _
    (fun j rest2 => decode_cellEvents s hi hb image (col + g.WIDTH * j) rest2) _ rest)]
  have : decodePixels (transferred endSPItransfer) = [] := rfl
  rw [this, List.append_nil]



theorem length_flatMap_uniform {α β : Type} (f : α → List β) (L : Nat)
    (hL : ∀ x, (f x).length = L) (l : List α) : (l.flatMap f).length = l.length * L := by
  induction l with
  | nil => simp
  | cons x xs ih => rw [List.flatMap_cons, List.length_append, ih, hL, List.length_cons]; ring

theorem cell_index_lt (W m r c : Nat) (hc : c < W) (hr : r < 8 * m) :
    c + W * (r / 8) < W * m := by
  have h1 : W * (r / 8 + 1) ≤ W * m := Nat.mul_le_mul_left _ (by omega)
  rw [Nat.mul_add, Nat.mul_one] at h1
  omega

/-- Claim C2, amended: for a geometry whose HEIGHT is a multiple of 8 (and whose cell
count fits the `uint16_t numCells`), a framebuffer of `WIDTH*HEIGHT/8` bytes and 12-bit
ink and background colours (both below 4096), the pixel stream that `paintScreen` sends
after the write-region header has `WIDTH*HEIGHT` pixels, and for `c < WIDTH`, `r < HEIGHT`
the pixel at position `c*HEIGHT + r` is the ink colour when bit `r mod 8` of
`image[(r/8)*WIDTH + c]` is set and the background colour when it is clear; when the two
colours differ, it is the ink colour if and only if the bit is set. -/
theorem C2_paintScreen_column_major (g : Geometry) (k : Consts) (s : State) (image : List Nat)
    (clear : Bool) (c r : Nat) (h8 : 8 ∣ g.HEIGHT) (hfit : g.WIDTH * g.HEIGHT / 8 < 65536)
    (hlen : image.length = g.WIDTH * g.HEIGHT / 8)
    (hink : s.pixelColor < 4096) (hbg : s.bgColor < 4096)
    (hc : c < g.WIDTH) (hr : r < g.HEIGHT) :
    (pixelStream (paintScreen g k s image clear).2).length = g.WIDTH * g.HEIGHT ∧
    ∃ byte, image[(r / 8) * g.WIDTH + c]? = some byte ∧
      (pixelStream (paintScreen g k s image clear).2)[c * g.HEIGHT + r]? =
        some (if byte.testBit (r % 8) then s.pixelColor else s.bgColor) ∧
      (s.pixelColor ≠ s.bgColor →
        ((pixelStream (paintScreen g k s image clear).2)[c * g.HEIGHT + r]? =
          some s.pixelColor ↔ byte.testBit (r % 8) = true)) := by
  obtain ⟨m, hm⟩ := h8
  have hdiv : g.HEIGHT / 8 = m := by omega
  have hcells : g.WIDTH * g.HEIGHT / 8 = g.WIDTH * m := by
    rw [hm, ← Nat.mul_assoc, Nat.mul_comm g.WIDTH 8, Nat.mul_assoc,
      Nat.mul_div_cancel_left _ (by norm_num : 0 < 8)]
  have hstream := pixelStream_paintScreen g k s image clear ⟨m, hm⟩ hfit hink hbg
  rw [hdiv] at hstream
  have hinner : ∀ col : Nat, ((List.range' 0 m).flatMap (fun j =>
      (List.range 8).map (fun b =>
        inkOrPaper s ((image.getD (col + g.WIDTH * j) 0).testBit b)))).length = g.HEIGHT := by
    intro col
    rw [length_flatMap_uniform _ 8 (fun j => by simp), List.length_range', hm]
    ring
  have hidx : c + g.WIDTH * (r / 8) < image.length := by
    rw [hlen, hcells]
    exact cell_index_lt _ _ _ _ hc (by omega)
  have hcomm : r / 8 * g.WIDTH + c = c + g.WIDTH * (r / 8) := by ring
  have hpix : (pixelStream (paintScreen g k s image clear).2)[c * g.HEIGHT + r]? =
      some (inkOrPaper s ((image.getD (c + g.WIDTH * (r / 8)) 0).testBit (r % 8))) := by
    rw [hstream, getElem?_flatMap_uniform _ g.HEIGHT hinner _ c r hr,
      List.getElem?_range' 0 1 (by omega : c < g.WIDTH)]
    simp only [Nat.one_mul, Nat.zero_add, Option.some_bind]
    have hsplit : r = (r / 8) * 8 + r % 8 := by omega
    conv_lhs => rw [hsplit]
    rw [getElem?_flatMap_uniform _ 8 (fun j => by simp) _ (r / 8) (r % 8) (by omega),
      List.getElem?_range' 0 1 (by omega : r / 8 < m)]
    simp only [Nat.one_mul, Nat.zero_add, Option.some_bind]
    rw [List.getElem?_map, List.getElem?_range (by omega)]
    simp only [Option.map_some']
  refine ⟨?_, image.getD (c + g.WIDTH * (r / 8)) 0, ?_, ?_, ?_⟩
  · rw [hstream, length_flatMap_uniform _ g.HEIGHT hinner, List.length_range']
  · rw [hcomm, List.getD_eq_getElem?_getD, List.getElem?_eq_getElem hidx]
    rfl
  · rw [hpix]; rfl
  · intro hne
    rw [hpix]
    unfold inkOrPaper
    cases (image.getD (c + g.WIDTH * (r / 8)) 0).testBit (r % 8)
    · simp [Ne.symm hne]
    · simp


/-- Witness for C2: the DotMG geometry with an all-ones framebuffer, column 5, row 10. -/
theorem C2_paintScreen_column_major_witness :
    (8 ∣ dotMG.HEIGHT ∧ dotMG.WIDTH * dotMG.HEIGHT / 8 < 65536 ∧
      (List.replicate 1024 0xFF).length = dotMG.WIDTH * dotMG.HEIGHT / 8 ∧
      (State.init dotMGConsts).pixelColor < 4096 ∧ (State.init dotMGConsts).bgColor < 4096 ∧
      5 < dotMG.WIDTH ∧ 10 < dotMG.HEIGHT) ∧
    (pixelStream (paintScreen dotMG dotMGConsts (State.init dotMGConsts)
      (List.replicate 1024 0xFF) false).2).length = dotMG.WIDTH * dotMG.HEIGHT :=
  ⟨⟨by decide, by decide, (List.length_replicate 1024 0xFF).trans (by decide), by decide, by decide, by decide, by decide⟩,
    (C2_paintScreen_column_major dotMG dotMGConsts (State.init dotMGConsts)
      (List.replicate 1024 0xFF) false 5 10 (by decide) (by decide)
      ((List.length_replicate 1024 0xFF).trans (by decide))
      (by decide) (by decide) (by decide) (by decide)).1⟩

theorem decodePixels_pairBytes_append (a b : Nat) (rest : List Nat) :
    decodePixels (pairBytes a b ++ rest) =
      (((a >>> 4) % 256) * 16 + ((((a &&& 0xF) <<< 4) ||| (b >>> 8)) % 256) / 16) ::
        ((((((a &&& 0xF) <<< 4) ||| (b >>> 8)) % 256) % 16) * 256 + b % 256) ::
          decodePixels rest := rfl

theorem pixelStream_paintScreen_head (g : Geometry) (k : Consts) (s : State)
    (image : List Nat) (clear : Bool) (h8 : 8 ∣ g.HEIGHT)
    (hfit : g.WIDTH * g.HEIGHT / 8 < 65536) (hW : 0 < g.WIDTH) (hH : 0 < g.HEIGHT / 8) :
    ∃ rest : List Ev,
      pixelStream (paintScreen g k s image clear).2 =
        decodePixels (transferred (pixelLoop s 4 (image.getD 0 0 % 256) ++ rest)) := by
  obtain ⟨w, hw⟩ : ∃ w, g.WIDTH = w + 1 := ⟨g.WIDTH - 1, by omega⟩
  obtain ⟨m, hm⟩ : ∃ m, g.HEIGHT / 8 = m + 1 := ⟨g.HEIGHT / 8 - 1, by omega⟩
  have hload : ∀ (c : Nat) (es : List Ev), transferred (Ev.load c :: es) = transferred es :=
    fun _ _ => rfl
  unfold pixelStream paintScreen
  simp only
  rw [List.append_assoc, afterRegion_paint, paintScreenBody_closed g s image h8 hfit, hm]
  rw [hw]
  rw [List.range'_succ, List.flatMap_cons, List.range'_succ, List.flatMap_cons]
  unfold cellEvents
  simp only [Nat.mul_zero, Nat.add_zero, List.append_assoc, List.singleton_append,
    List.cons_append]
  rw [hload]
  exact ⟨_, rfl⟩

/-- Counterexample to C2 as stated, on the DotMG geometry.  After `setPixelColor(0x1000)`
and `setBackgroundColor(0xABC)`, with every framebuffer byte `0xAA`, the pixel at position
`0*HEIGHT + 0` decodes to `0xABD` although bit 0 of `image[0]` is clear and the background
is `0xABC`.  After `setPixelColor(0)` (ink equal to the background `0`), with an all-zero
framebuffer, the same pixel is the ink colour although its bit is clear. -/
theorem C2_unrestricted_colours_refuted :
    (setBackgroundColor dotMG dotMGConsts (setPixelColor (State.init dotMGConsts) 0x1000).1
        0xABC).1 =
      { State.init dotMGConsts with pixelColor := 0x1000, bgColor := 0xABC } ∧
    (pixelStream (paintScreen dotMG dotMGConsts
        { State.init dotMGConsts with pixelColor := 0x1000, bgColor := 0xABC }
        (List.replicate 1024 0xAA) false).2)[0 * dotMG.HEIGHT + 0]? = some 0xABD ∧
    ((List.replicate 1024 0xAA).getD (0 / 8 * dotMG.WIDTH + 0) 0).testBit (0 % 8) = false ∧
    (setPixelColor (State.init dotMGConsts) 0).1 =
      { State.init dotMGConsts with pixelColor := 0, bgColor := 0 } ∧
    (pixelStream (paintScreen dotMG dotMGConsts
        { State.init dotMGConsts with pixelColor := 0, bgColor := 0 }
        (List.replicate 1024 0) false).2)[0 * dotMG.HEIGHT + 0]? = some 0 ∧
    ((List.replicate 1024 0).getD (0 / 8 * dotMG.WIDTH + 0) 0).testBit (0 % 8) = false := by
  have hget : ∀ v : Nat, (List.replicate 1024 v).getD 0 0 = v := fun v => rfl
  refine ⟨rfl, ?_, ?_, rfl, ?_, ?_⟩
  · obtain ⟨rest, h⟩ := pixelStream_paintScreen_head dotMG dotMGConsts
      { State.init dotMGConsts with pixelColor := 0x1000, bgColor := 0xABC }
      (List.replicate 1024 0xAA) false (by decide) (by decide) (by decide) (by decide)
    rw [h, hget, pixelLoop, List.append_assoc, transferred_append, transferred_sendPair]
    rfl
  · rw [show (0 / 8 * dotMG.WIDTH + 0) = 0 from rfl, hget]
    decide
  · obtain ⟨rest, h⟩ := pixelStream_paintScreen_head dotMG dotMGConsts
      { State.init dotMGConsts with pixelColor := 0, bgColor := 0 }
      (List.replicate 1024 0) false (by decide) (by decide) (by decide) (by decide)
    rw [h, hget, pixelLoop, List.append_assoc, transferred_append, transferred_sendPair]
    rfl
  · rw [show (0 / 8 * dotMG.WIDTH + 0) = 0 from rfl, hget]
    decide

/-! ## Addressed and transferred pixel counts -/

theorem dataRun_sendPair (a b : Nat) (rest : List Ev) :
    dataRun true (sendPair a b ++ rest) = dataRun true rest + 3 := by
  simp [sendPair, SPItransfer, dataRun]

theorem dataRun_fillLoop (color : Nat) (rest : List Ev) :
    ∀ n : Nat, dataRun true (fillLoop color n ++ rest) = dataRun true rest + 3 * n := by
  intro n
  induction n with
  | zero => simp [fillLoop]
  | succ n ih =>
    rw [fillLoop, List.append_assoc, dataRun_sendPair, ih]
    ring

theorem dataRun_pixelLoop (s : State) (rest : List Ev) :
    ∀ (n p : Nat), dataRun true (pixelLoop s n p ++ rest) = dataRun true rest + 3 * n := by
  intro n
  induction n with
  | zero => intro p; simp [pixelLoop]
  | succ n ih =>
    intro p
    rw [pixelLoop]
    rw [List.append_assoc, dataRun_sendPair, ih]
    ring

theorem dataRun_cellEvents (s : State) (image : List Nat) (cell : Nat) (rest : List Ev) :
    dataRun true (cellEvents s image cell ++ rest) = dataRun true rest + 12 := by
  unfold cellEvents
  rw [List.append_assoc, List.singleton_append]
  have hload : ∀ es : List Ev, dataRun true (Ev.load cell :: es) = dataRun true es :=
    fun _ => rfl
  rw [hload, dataRun_pixelLoop]

theorem dataRun_flatMap_uniform {α : Type} (f : α → List Ev) (L : Nat)
    (h : ∀ x rest, dataRun true (f x ++ rest) = dataRun true rest + L) :
    ∀ (l : List α) (rest : List Ev),
      dataRun true (l.flatMap f ++ rest) = dataRun true rest + l.length * L := by
  intro l
  induction l with
  | nil => intro rest; simp
  | cons x xs ih =>
    intro rest
    rw [List.flatMap_cons, List.append_assoc, h, ih, List.length_cons]
    ring

theorem dataRun_setWriteRegion (k : Consts) (x y width height : Nat) (dc : Bool)
    (rest : List Ev) : dataRun dc (setWriteRegion k x y width height ++ rest) = 0 := by
  simp [setWriteRegion, sendLCDCommand, LCDCommandMode, LCDDataMode, SPItransfer, dataRun]

theorem dataRun_regionFill (k : Consts) (x y width height : Int) (color : Nat) (bound : Int)
    (dc : Bool) (rest : List Ev) :
    dataRun dc (regionFill k x y width height color bound ++ rest) = 0 := by
  unfold regionFill
  rw [List.append_assoc, dataRun_setWriteRegion]

theorem dataRun_endSPItransfer (dc : Bool) (rest : List Ev) :
    dataRun dc (endSPItransfer ++ rest) = 0 := by
  simp [endSPItransfer, dataRun]

theorem dataRun_sendLCDCommand (command : Nat) (dc : Bool) (rest : List Ev) :
    dataRun dc (sendLCDCommand command ++ rest) = 0 := by
  simp [sendLCDCommand, LCDCommandMode, LCDDataMode, SPItransfer, dataRun]

theorem bursts_append_left_nil (a b : List Ev) (h : bursts a = []) :
    bursts (a ++ b) = bursts b := by
  induction a with
  | nil => rfl
  | cons e es ih =>
    cases e <;> simp_all [bursts]

theorem bursts_sendPair (a b : Nat) : bursts (sendPair a b) = [] := rfl

theorem bursts_fillLoop (color : Nat) : ∀ n : Nat, bursts (fillLoop color n) = [] := by
  intro n
  induction n with
  | zero => rfl
  | succ n ih => rw [fillLoop, bursts_append_left_nil _ _ (bursts_sendPair _ _), ih]

theorem bursts_pixelLoop (s : State) : ∀ (n p : Nat), bursts (pixelLoop s n p) = [] := by
  intro n
  induction n with
  | zero => intro p; rfl
  | succ n ih =>
    intro p
    rw [pixelLoop]
    rw [bursts_append_left_nil _ _ (bursts_sendPair _ _), ih]

theorem bursts_cellLoop (g : Geometry) (s : State) (image : List Nat) (N : Nat) :
    ∀ (fuel cell : Nat), bursts (cellLoop g s image N fuel cell) = [] := by
  intro fuel
  induction fuel with
  | zero => intro cell; rfl
  | succ f ih =>
    intro cell
    rw [cellLoop]
    split
    · rw [List.append_assoc, List.singleton_append]
      have hload : ∀ es : List Ev, bursts (Ev.load cell :: es) = bursts es := fun _ => rfl
      rw [hload, bursts_append_left_nil _ _ (bursts_pixelLoop s _ _), ih]
    · rfl

theorem bursts_columnLoop (g : Geometry) (s : State) (image : List Nat) (N : Nat) :
    ∀ (n c : Nat), bursts (columnLoop g s image N n c) = [] := by
  intro n
  induction n with
  | zero => intro c; rfl
  | succ n ih =>
    intro c
    rw [columnLoop, bursts_append_left_nil _ _ (bursts_cellLoop g s image N _ _), ih]

theorem bursts_paintScreenBody (g : Geometry) (s : State) (image : List Nat) :
    bursts (paintScreenBody g s image) = [] :=
  bursts_columnLoop g s image _ _ _

theorem bursts_setWriteRegion (k : Consts) (x y width height : Nat) (rest : List Ev) :
    bursts (setWriteRegion k x y width height ++ rest) =
      ⟨x, y, width, height, dataRun true rest⟩ :: bursts rest := by
  simp [setWriteRegion, sendLCDCommand, LCDCommandMode, LCDDataMode, SPItransfer, bursts]

theorem bursts_regionFill (k : Consts) (x y width height : Int) (color : Nat) (bound : Int)
    (rest : List Ev) :
    bursts (regionFill k x y width height color bound ++ rest) =
      ⟨u8 x, u8 y, u8 width, u8 height, dataRun true rest + 3 * bound.toNat⟩ ::
        bursts rest := by
  unfold regionFill
  rw [List.append_assoc, bursts_setWriteRegion, dataRun_fillLoop,
    bursts_append_left_nil _ _ (bursts_fillLoop _ _)]

theorem bursts_startSPItransfer (rest : List Ev) :
    bursts (startSPItransfer ++ rest) = bursts rest := rfl

theorem bursts_drawBorderEvents_dotMG (k : Consts) (s : State) (rest : List Ev) :
    bursts (drawBorderEvents dotMG k s ++ rest) = dotMGBorderBursts ++ bursts rest := by
  unfold drawBorderEvents
  simp only [List.append_assoc]
  rw [bursts_startSPItransfer]
  simp only [bursts_regionFill, dataRun_regionFill, dataRun_endSPItransfer]
  rw [bursts_append_left_nil endSPItransfer rest rfl]
  rfl


theorem bursts_setWriteRegionDefault_dotMG (k : Consts) (rest : List Ev) :
    bursts (setWriteRegionDefault dotMG k ++ rest) =
      ⟨16, 32, 128, 64, dataRun true rest⟩ :: bursts rest := by
  unfold setWriteRegionDefault
  rw [bursts_setWriteRegion]
  rfl

theorem dataRun_paintScreenBody_dotMG (s : State) (image : List Nat) (rest : List Ev) :
    dataRun true (paintScreenBody dotMG s image ++ rest) = dataRun true rest + 12288 := by
  rw [paintScreenBody_closed dotMG s image (by decide) (by decide),
    dataRun_flatMap_uniform _ (dotMG.HEIGHT / 8 * 12) (fun col r =>
      dataRun_flatMap_uniform _ 12 (fun j r2 => dataRun_cellEvents s image _ r2) _ r
        |>.trans (by rw [List.length_range']))]
  rw [List.length_range']
  rfl

theorem bursts_paintScreen_dotMG (k : Consts) (s : State) (image : List Nat) (clear : Bool) :
    bursts (paintScreen dotMG k s image clear).2 = [⟨16, 32, 128, 64, 12288⟩] := by
  unfold paintScreen
  simp only [List.append_assoc]
  rw [bursts_startSPItransfer, bursts_setWriteRegionDefault_dotMG,
    dataRun_paintScreenBody_dotMG,
    bursts_append_left_nil _ _ (bursts_paintScreenBody dotMG s image)]
  rfl

theorem bursts_blank_dotMG (k : Consts) (s : State) :
    bursts (blank dotMG k s) = [⟨16, 32, 128, 64, 12288⟩] := by
  unfold blank
  simp only [List.append_assoc]
  rw [bursts_startSPItransfer, bursts_setWriteRegionDefault_dotMG, dataRun_fillLoop,
    bursts_append_left_nil _ _ (bursts_fillLoop _ _)]
  rfl

theorem bursts_sendBytes (rest : List Ev) :
    ∀ bs : List Nat, bursts (sendBytes bs ++ rest) = bursts rest := by
  intro bs
  induction bs with
  | nil => rfl
  | cons b bs ih => rw [sendBytes, List.append_assoc]; exact ih

theorem bursts_sendLCDCommand (command : Nat) (rest : List Ev) :
    bursts (sendLCDCommand command ++ rest) = bursts rest := rfl

theorem bursts_delayShort (ms : Nat) (rest : List Ev) :
    bursts (delayShort ms ++ rest) = bursts rest := rfl

theorem bursts_SPItransfer (b : Nat) (rest : List Ev) :
    bursts (SPItransfer b ++ rest) = bursts rest := rfl

theorem bursts_endSPItransfer (rest : List Ev) :
    bursts (endSPItransfer ++ rest) = bursts rest := rfl

theorem bursts_LCDDataMode (rest : List Ev) :
    bursts (LCDDataMode ++ rest) = bursts rest := rfl

theorem bursts_LCDCommandMode (rest : List Ev) :
    bursts (LCDCommandMode ++ rest) = bursts rest := rfl

theorem bursts_bootTFT_dotMG (k : Consts) (s : State) :
    bursts (bootTFT dotMG k s).2 =
      ⟨0, 0, 160, 128, 30720⟩ :: (dotMGBorderBursts ++ [⟨16, 32, 128, 64, 12288⟩]) := by
  unfold bootTFT drawBorder
  simp only [List.append_assoc]
  have h4 : ∀ rest : List Ev, bursts ([Ev.pinMode Pin.TFT_CS, Ev.pinMode Pin.TFT_DC,
      Ev.pinMode Pin.TFT_RST, Ev.pinWrite Pin.TFT_CS true] ++ rest) = bursts rest :=
    fun _ => rfl
  have h1 : ∀ rest : List Ev, bursts ([Ev.pinWrite Pin.TFT_RST true] ++ rest) = bursts rest :=
    fun _ => rfl
  rw [h4, bursts_delayShort, h1, bursts_delayShort, bursts_LCDCommandMode,
    bursts_startSPItransfer, bursts_sendLCDCommand, bursts_delayShort, bursts_sendLCDCommand,
    bursts_delayShort, bursts_sendLCDCommand, bursts_sendBytes, bursts_sendLCDCommand,
    bursts_SPItransfer, bursts_sendLCDCommand, bursts_SPItransfer, bursts_sendLCDCommand,
    bursts_sendBytes, bursts_sendLCDCommand, bursts_sendBytes, bursts_regionFill,
    dataRun_sendLCDCommand, bursts_sendLCDCommand, bursts_delayShort, bursts_endSPItransfer,
    bursts_LCDDataMode, bursts_drawBorderEvents_dotMG, bursts_startSPItransfer,
    bursts_setWriteRegionDefault_dotMG, dataRun_fillLoop,
    bursts_append_left_nil _ _ (bursts_fillLoop _ _)]
  rfl

/-- Claim C3: with the DotMG constants, `paintScreen` and `blank` open one write region,
`bootTFT` fourteen (its two fills and the twelve of the border it draws) and `drawBorder`
twelve, and each call `setWriteRegion(x, y, width, height)` is followed, before the next
command byte or the end of the transaction, by exactly `3*(width*height/2)` data bytes,
with `width*height` even. -/
theorem C3_addressed_equals_transferred (k : Consts) (s : State) (image : List Nat) (clear : Bool) :
    (bursts (paintScreen dotMG k s image clear).2).length = 1 ∧
    (bursts (blank dotMG k s)).length = 1 ∧
    (bursts (bootTFT dotMG k s).2).length = 14 ∧
    (bursts (drawBorder dotMG k s).2).length = 12 ∧
    ∀ b, b ∈ bursts (paintScreen dotMG k s image clear).2 ++ bursts (blank dotMG k s) ++
        bursts (bootTFT dotMG k s).2 ++ bursts (drawBorder dotMG k s).2 →
      b.bytes = 3 * (b.width * b.height / 2) ∧ b.width * b.height % 2 = 0 := by
  have hb : bursts (drawBorder dotMG k s).2 = dotMGBorderBursts := by
    have h := bursts_drawBorderEvents_dotMG k s []
    rw [List.append_nil] at h
    rw [show (drawBorder dotMG k s).2 = drawBorderEvents dotMG k s from rfl, h]
    rfl
  rw [bursts_paintScreen_dotMG, bursts_blank_dotMG, bursts_bootTFT_dotMG, hb]
  refine ⟨rfl, rfl, rfl, rfl, ?_⟩
  decide


/-! ## Framebuffer reads and the clear flag -/

theorem loads_sendPair (a b : Nat) : loads (sendPair a b) = [] := rfl

theorem loads_pixelLoop (s : State) : ∀ (n p : Nat), loads (pixelLoop s n p) = [] := by
  intro n
  induction n with
  | zero => intro p; rfl
  | succ n ih => intro p; rw [pixelLoop, loads_append, loads_sendPair, ih]; rfl

theorem loads_fillLoop (color : Nat) : ∀ n : Nat, loads (fillLoop color n) = [] := by
  intro n
  induction n with
  | zero => rfl
  | succ n ih => rw [fillLoop, loads_append, loads_sendPair, ih]; rfl

theorem loads_cellEvents (s : State) (image : List Nat) (cell : Nat) :
    loads (cellEvents s image cell) = [cell] := by
  unfold cellEvents
  rw [loads_append, loads_pixelLoop]
  rfl

theorem loads_flatMap {α : Type} (f : α → List Ev) (l : List α) :
    loads (l.flatMap f) = l.flatMap (fun x => loads (f x)) := by
  induction l with
  | nil => rfl
  | cons x xs ih => rw [List.flatMap_cons, List.flatMap_cons, loads_append, ih]

theorem loads_setWriteRegion (k : Consts) (x y width height : Nat) :
    loads (setWriteRegion k x y width height) = [] := rfl

theorem loads_paintScreen (g : Geometry) (k : Consts) (s : State) (image : List Nat)
    (clear : Bool) (h8 : 8 ∣ g.HEIGHT) (hfit : g.WIDTH * g.HEIGHT / 8 < 65536) :
    loads (paintScreen g k s image clear).2 =
      (List.range' 0 g.WIDTH).flatMap (fun col =>
        (List.range' 0 (g.HEIGHT / 8)).map (fun j => col + g.WIDTH * j)) := by
  unfold paintScreen
  simp only
  rw [loads_append, loads_append, loads_append, paintScreenBody_closed g s image h8 hfit,
    loads_flatMap]
  have h1 : loads startSPItransfer = [] := rfl
  have h2 : loads (setWriteRegionDefault g k) = [] := rfl
  have h3 : loads endSPItransfer = [] := rfl
  rw [h1, h2, h3, List.nil_append, List.nil_append, List.append_nil]
  congr 1
  funext col
  rw [loads_flatMap]
  simp only [loads_cellEvents]
  rw [List.map_eq_flatMap]

theorem mem_cells (W m x : Nat) :
    x ∈ (List.range' 0 W).flatMap (fun col => (List.range' 0 m).map (fun j => col + W * j)) ↔
      x < W * m := by
  simp only [List.mem_flatMap, List.mem_map, List.mem_range'_1, Nat.zero_le, true_and,
    Nat.zero_add]
  constructor
  · rintro ⟨col, hcol, j, hj, rfl⟩
    have h1 : W * (j + 1) ≤ W * m := Nat.mul_le_mul_left _ (by omega)
    rw [Nat.mul_add, Nat.mul_one] at h1
    omega
  · intro hx
    have hW : 0 < W := by
      rcases Nat.eq_zero_or_pos W with h | h
      · subst h; simp at hx
      · exact h
    refine ⟨x % W, Nat.mod_lt _ hW, x / W, ?_, Nat.mod_add_div x W⟩
    exact Nat.div_lt_of_lt_mul hx

theorem nodup_cells (W m : Nat) :
    ((List.range' 0 W).flatMap (fun col =>
      (List.range' 0 m).map (fun j => col + W * j))).Nodup := by
  rw [List.nodup_flatMap]
  constructor
  · intro col hcol
    have hW : 0 < W := by
      simp only [List.mem_range'_1] at hcol
      omega
    apply List.Nodup.map _ (List.nodup_range' 0 m)
    intro a b hab
    simp only at hab
    exact Nat.eq_of_mul_eq_mul_left hW (by omega)
  · apply List.Nodup.pairwise_of_forall_ne (List.nodup_range' 0 W)
    intro a ha b hb hne
    simp only [List.mem_range'_1] at ha hb
    simp only [Function.onFun]
    intro x hxa hxb
    simp only [List.mem_map] at hxa hxb
    obtain ⟨ja, _, rfl⟩ := hxa
    obtain ⟨jb, _, hjb⟩ := hxb
    apply hne
    have h1 : (a + W * ja) % W = a := by
      rw [Nat.add_mul_mod_self_left]; exact Nat.mod_eq_of_lt (by omega)
    have h2 : (b + W * jb) % W = b := by
      rw [Nat.add_mul_mod_self_left]; exact Nat.mod_eq_of_lt (by omega)
    rw [← h1, ← h2, hjb]

theorem memsetZero_full (image : List Nat) : memsetZero image image.length =
    List.replicate image.length 0 := by
  unfold memsetZero
  simp

/-- Claim C4: for a framebuffer of `WIDTH*HEIGHT/8` bytes, `paintScreen(image, true)`
leaves every byte equal to 0, `paintScreen(image, false)` leaves the buffer unchanged,
both calls perform the same events, every cell index below `WIDTH*HEIGHT/8` is read
exactly once and no other index is read, and `blank` (which takes no buffer) reads no
framebuffer cell. -/
theorem C4_paintScreen_clear_flag (g : Geometry) (k : Consts) (s : State) (image : List Nat)
    (h8 : 8 ∣ g.HEIGHT) (hfit : g.WIDTH * g.HEIGHT / 8 < 65536)
    (hlen : image.length = g.WIDTH * g.HEIGHT / 8) :
    (paintScreen g k s image true).1 = List.replicate (g.WIDTH * g.HEIGHT / 8) 0 ∧
    (paintScreen g k s image false).1 = image ∧
    (paintScreen g k s image true).2 = (paintScreen g k s image false).2 ∧
    (∀ i, i < g.WIDTH * g.HEIGHT / 8 →
      (loads (paintScreen g k s image false).2).count i = 1) ∧
    (∀ i, i ∈ loads (paintScreen g k s image false).2 → i < g.WIDTH * g.HEIGHT / 8) ∧
    loads (blank g k s) = [] := by
  have hN : numCells g = g.WIDTH * g.HEIGHT / 8 := Nat.mod_eq_of_lt hfit
  have hcells : g.WIDTH * g.HEIGHT / 8 = g.WIDTH * (g.HEIGHT / 8) := by
    rw [← hN, numCells_eq g h8 hfit]
  have hl := loads_paintScreen g k s image false h8 hfit
  refine ⟨?_, rfl, rfl, ?_, ?_, ?_⟩
  · simp only [paintScreen, if_true]
    rw [hN, ← hlen, memsetZero_full]
  · intro i hi
    rw [hl]
    exact List.count_eq_one_of_mem (nodup_cells _ _) ((mem_cells _ _ _).2 (hcells ▸ hi))
  · intro i hi
    rw [hl] at hi
    rw [hcells]
    exact (mem_cells _ _ _).1 hi
  · unfold blank
    rw [loads_append, loads_append, loads_append, loads_fillLoop]
    rfl


/-- Witness for C4: the DotMG geometry with an all-ones framebuffer. -/
theorem C4_paintScreen_clear_flag_witness :
    (8 ∣ dotMG.HEIGHT ∧ dotMG.WIDTH * dotMG.HEIGHT / 8 < 65536 ∧
      (List.replicate 1024 0xFF).length = dotMG.WIDTH * dotMG.HEIGHT / 8) ∧
    (paintScreen dotMG dotMGConsts (State.init dotMGConsts) (List.replicate 1024 0xFF) true).1 =
      List.replicate (dotMG.WIDTH * dotMG.HEIGHT / 8) 0 :=
  ⟨⟨by decide, by decide, (List.length_replicate 1024 0xFF).trans (by decide)⟩,
    (C4_paintScreen_clear_flag dotMG dotMGConsts (State.init dotMGConsts)
      (List.replicate 1024 0xFF) (by decide) (by decide)
      ((List.length_replicate 1024 0xFF).trans (by decide))).1⟩

/-! ## Framing and write-region addressing -/

theorem u8_of_lt (n : Nat) (h : n < 256) : u8 (n : Int) = n := by
  unfold u8
  omega

theorem u8_lt (i : Int) : u8 i < 256 := by
  unfold u8
  omega

theorem wire_setWriteRegion (k : Consts) (x y width height : Nat) (dc : Bool) :
    wire dc (setWriteRegion k x y width height) =
      [Wire.cmd (k.ST77XX_CASET % 256), Wire.dat 0, Wire.dat (y % 256), Wire.dat 0,
       Wire.dat (u8 ((y : Int) + height - 1)),
       Wire.cmd (k.ST77XX_RASET % 256), Wire.dat 0, Wire.dat (x % 256), Wire.dat 0,
       Wire.dat (u8 ((x : Int) + width - 1)),
       Wire.cmd (k.ST77XX_RAMWR % 256)] := by
  have h1 := Nat.mod_eq_of_lt (u8_lt ((y : Int) + height - 1))
  have h2 := Nat.mod_eq_of_lt (u8_lt ((x : Int) + width - 1))
  simp [setWriteRegion, sendLCDCommand, LCDCommandMode, LCDDataMode, SPItransfer, wire, h1, h2]

theorem defaultRegion_eq (g : Geometry) (hw : g.WIDTH ≤ g.TFT_WIDTH) (hW : g.TFT_WIDTH < 256)
    (hh : g.HEIGHT ≤ g.TFT_HEIGHT) (hH : g.TFT_HEIGHT < 256) :
    defaultRegion g =
      ((g.TFT_WIDTH - g.WIDTH) / 2, (g.TFT_HEIGHT - g.HEIGHT) / 2, g.WIDTH, g.HEIGHT) := by
  unfold defaultRegion u8
  have e1 : Int.tdiv ((g.TFT_WIDTH : Int) - g.WIDTH) 2 =
      (((g.TFT_WIDTH - g.WIDTH) / 2 : Nat) : Int) := by
    rw [← Nat.cast_sub hw]
    rfl
  have e2 : Int.tdiv ((g.TFT_HEIGHT : Int) - g.HEIGHT) 2 =
      (((g.TFT_HEIGHT - g.HEIGHT) / 2 : Nat) : Int) := by
    rw [← Nat.cast_sub hh]
    rfl
  rw [e1, e2]
  congr 1
  · omega
  · congr 1
    · omega
    · congr 1 <;> omega

/-- Claim C5: for 8-bit arguments `setWriteRegion` puts on the bus exactly command CASET,
data `0, y, 0, (y+height-1) mod 256`, command RASET, data `0, x, 0, (x+width-1) mod 256`,
command RAMWR; called without arguments it is the call with `x = (TFT_WIDTH-WIDTH)/2`,
`y = (TFT_HEIGHT-HEIGHT)/2`, `width = WIDTH`, `height = HEIGHT`, which for the DotMG
constants is the rectangle `(16, 32, 128, 64)` with equal margins on opposite sides. -/
theorem C5_setWriteRegion_wire_format (g : Geometry) (k : Consts) (x y width height : Nat)
    (dc : Bool) (hx : x < 256) (hy : y < 256) (_hwidth : width < 256) (_hheight : height < 256)
    (hw : g.WIDTH ≤ g.TFT_WIDTH) (hW : g.TFT_WIDTH < 256)
    (hh : g.HEIGHT ≤ g.TFT_HEIGHT) (hH : g.TFT_HEIGHT < 256) :
    wire dc (setWriteRegion k x y width height) =
      [Wire.cmd (k.ST77XX_CASET % 256), Wire.dat 0, Wire.dat y, Wire.dat 0,
       Wire.dat (((y : Int) + height - 1) % 256).toNat,
       Wire.cmd (k.ST77XX_RASET % 256), Wire.dat 0, Wire.dat x, Wire.dat 0,
       Wire.dat (((x : Int) + width - 1) % 256).toNat,
       Wire.cmd (k.ST77XX_RAMWR % 256)] ∧
    setWriteRegionDefault g k =
      setWriteRegion k ((g.TFT_WIDTH - g.WIDTH) / 2) ((g.TFT_HEIGHT - g.HEIGHT) / 2)
        g.WIDTH g.HEIGHT ∧
    setWriteRegionDefault dotMG k = setWriteRegion k 16 32 128 64 ∧
    16 + 128 + 16 = dotMG.TFT_WIDTH ∧ 32 + 64 + 32 = dotMG.TFT_HEIGHT := by
  refine ⟨?_, ?_, ?_, rfl, rfl⟩
  · rw [wire_setWriteRegion, Nat.mod_eq_of_lt hx, Nat.mod_eq_of_lt hy]
    rfl
  · unfold setWriteRegionDefault
    rw [defaultRegion_eq g hw hW hh hH]
  · unfold setWriteRegionDefault
    rw [defaultRegion_eq dotMG (by decide) (by decide) (by decide) (by decide)]
    rfl

/-- Witness for C5: the default rectangle of the DotMG geometry. -/
theorem C5_setWriteRegion_wire_format_witness :
    wire true (setWriteRegion dotMGConsts 16 32 128 64) =
      [Wire.cmd 0x2A, Wire.dat 0, Wire.dat 32, Wire.dat 0, Wire.dat 95,
       Wire.cmd 0x2B, Wire.dat 0, Wire.dat 16, Wire.dat 0, Wire.dat 143,
       Wire.cmd 0x2C] :=
  (C5_setWriteRegion_wire_format dotMG dotMGConsts 16 32 128 64 true (by decide) (by decide)
    (by decide) (by decide) (by decide) (by decide) (by decide) (by decide)).1

/-- Claim C6: whatever the level of the data/command line on entry, `sendLCDCommand`
transfers exactly one byte, the opcode, which the panel sees as a command, and returns
with the line in data mode. -/
theorem C6_sendLCDCommand_framing (command : Nat) (dc : Bool) :
    wire dc (sendLCDCommand command) = [Wire.cmd (command % 256)] ∧
      transferred (sendLCDCommand command) = [command % 256] ∧
      dcAfter dc (sendLCDCommand command) = true := by
  simp [sendLCDCommand, LCDCommandMode, LCDDataMode, SPItransfer, wire, transferred, dcAfter]

/-! ## Colour setters -/

/-- Claim C7: each of `setBorderLineColor`, `setBorderFillColor` and `setBackgroundColor`
stores the colour; while `borderDrawn` is false it emits nothing and leaves the flag
false, and once `borderDrawn` is true it emits exactly the events of one `drawBorder` run
on the updated colours.  `setPixelColor` stores the colour and never emits anything. -/
theorem C7_border_redraw_gating (g : Geometry) (k : Consts) (s : State) (color : Nat)
    (hc : color < 65536) :
    (s.borderDrawn = false →
      setBorderLineColor g k s color = ({ s with borderLineColor := color }, []) ∧
      setBorderFillColor g k s color = ({ s with borderFillColor := color }, []) ∧
      setBackgroundColor g k s color = ({ s with bgColor := color }, [])) ∧
    (s.borderDrawn = true →
      setBorderLineColor g k s color =
        ({ s with borderLineColor := color },
          (drawBorder g k { s with borderLineColor := color }).2) ∧
      setBorderFillColor g k s color =
        ({ s with borderFillColor := color },
          (drawBorder g k { s with borderFillColor := color }).2) ∧
      setBackgroundColor g k s color =
        ({ s with bgColor := color }, (drawBorder g k { s with bgColor := color }).2)) ∧
    setPixelColor s color = ({ s with pixelColor := color }, []) := by
  have hm : color % 65536 = color := Nat.mod_eq_of_lt hc
  refine ⟨fun h => ?_, fun h => ?_, ?_⟩
  · simp [setBorderLineColor, setBorderFillColor, setBackgroundColor, h, hm]
  · simp [setBorderLineColor, setBorderFillColor, setBackgroundColor, h, hm, drawBorder]
  · simp [setPixelColor, hm]

/-- Witness for C7: setting the border line colour before the first border draw. -/
theorem C7_border_redraw_gating_witness :
    0xF00 < 65536 ∧ (State.init dotMGConsts).borderDrawn = false ∧
    setBorderLineColor dotMG dotMGConsts (State.init dotMGConsts) 0xF00 =
      ({ State.init dotMGConsts with borderLineColor := 0xF00 }, []) :=
  ⟨by decide, rfl,
    ((C7_border_redraw_gating dotMG dotMGConsts (State.init dotMGConsts) 0xF00
      (by decide)).1 rfl).1⟩

/-! ## LED quantisation -/

theorem ledQuant_complement (v : Nat) (hv : v < 256) :
    15 - ledQuant (255 - v) = ledQuant v ↔ v % 17 = 0 := by
  unfold ledQuant
  constructor <;> intro h <;> omega

/-- Claim C8 fails on the code: for the channel intensity 1, `drawLEDs` sends level 0
when the display is not inverted and level 14 when it is inverted, whose 4-bit
complement is 1, not 0; on 8-bit intensities the complement of the inverted level equals
the plain level exactly for the multiples of 17. -/
theorem C8_led_inversion_rounding :
    ledQuant (ledChannel { State.init dotMGConsts with LEDs := [1, 0, 0] } 0) = 0 ∧
    ledQuant (ledChannel
      { State.init dotMGConsts with LEDs := [1, 0, 0], inverted := true } 0) = 14 ∧
    15 - ledQuant (255 - 1) ≠ ledQuant 1 ∧
    ∀ v, v < 256 → (15 - ledQuant (255 - v) = ledQuant v ↔ v % 17 = 0) := by
  refine ⟨by decide, by decide, by decide, ledQuant_complement⟩

/-! ## Inversion and orientation -/

/-- Claim C9: `invert(b)` with `b` equal to the current flag emits nothing and changes
nothing; otherwise it only sets the flag, and its events are those of `drawLEDs` under
the new flag followed by one transaction holding the single command INVON or INVOFF.
A second `invert(b)` therefore adds no event and no state change. -/
theorem C9_invert (g : Geometry) (k : Consts) (s : State) (b : Bool) :
    invert g k s b =
        (if b = s.inverted then (s, [])
         else ({ s with inverted := b },
           drawLEDs g k { s with inverted := b } ++
             (startSPItransfer ++
               sendLCDCommand (if b then k.ST77XX_INVON else k.ST77XX_INVOFF) ++
               endSPItransfer))) ∧
      (∀ dc, wire dc (startSPItransfer ++
          sendLCDCommand (if b then k.ST77XX_INVON else k.ST77XX_INVOFF) ++ endSPItransfer) =
        [Wire.txBegin, Wire.cmd ((if b then k.ST77XX_INVON else k.ST77XX_INVOFF) % 256),
          Wire.txEnd]) ∧
      (invert g k (invert g k s b).1 b).1 = (invert g k s b).1 ∧
      (invert g k s b).2 ++ (invert g k (invert g k s b).1 b).2 = (invert g k s b).2 := by
  refine ⟨?_, ?_, ?_, ?_⟩
  · unfold invert
    by_cases h : b = s.inverted <;> simp [h]
  · intro dc
    simp [startSPItransfer, endSPItransfer, sendLCDCommand, LCDCommandMode, LCDDataMode,
      SPItransfer, wire]
  · unfold invert
    by_cases h : b = s.inverted <;> simp [h]
  · unfold invert
    by_cases h : b = s.inverted <;> simp [h]

theorem setBits_idem (m a : Nat) : setBits (setBits m a) a = setBits m a := by
  unfold setBits
  apply Nat.eq_of_testBit_eq
  intro i
  simp only [Nat.testBit_mod_two_pow, Nat.testBit_or, show (256 : Nat) = 2 ^ 8 from rfl]
  cases decide (i < 8) <;> cases m.testBit i <;> cases a.testBit i <;> rfl

theorem clearBits_idem (m a : Nat) : clearBits (clearBits m a) a = clearBits m a := by
  unfold clearBits
  apply Nat.eq_of_testBit_eq
  intro i
  simp only [Nat.testBit_mod_two_pow, Nat.testBit_and, show (256 : Nat) = 2 ^ 8 from rfl]
  cases decide (i < 8) <;> cases m.testBit i <;> cases (255 ^^^ a % 2 ^ 8).testBit i <;> rfl

theorem setBits_of_set (m a : Nat) (hm : m < 256) (h : m &&& a = a) : setBits m a = m := by
  unfold setBits
  have : m ||| a = m := by
    apply Nat.eq_of_testBit_eq
    intro i
    have hi := congrArg (fun x => Nat.testBit x i) h
    simp only [Nat.testBit_and] at hi
    simp only [Nat.testBit_or]
    cases hm : m.testBit i <;> cases ha : a.testBit i <;> simp_all
  rw [this]
  exact Nat.mod_eq_of_lt hm

theorem wire_flip (k : Consts) (m : Nat) (dc : Bool) :
    wire dc (startSPItransfer ++ sendLCDCommand k.ST77XX_MADCTL ++ SPItransfer m ++
      endSPItransfer) =
    [Wire.txBegin, Wire.cmd (k.ST77XX_MADCTL % 256), Wire.dat (m % 256), Wire.txEnd] := by
  simp [startSPItransfer, endSPItransfer, sendLCDCommand, LCDCommandMode, LCDDataMode,
    SPItransfer, wire]

theorem setBits_lt (m a : Nat) : setBits m a < 256 := Nat.mod_lt _ (by norm_num)

theorem clearBits_lt (m a : Nat) : clearBits m a < 256 := Nat.mod_lt _ (by norm_num)

theorem flipHorizontal_reg_lt (k : Consts) (s : State) (b : Bool) :
    (flipHorizontal k s b).1.MADCTL < 256 := by
  cases b <;> simp [flipHorizontal, setBits_lt, clearBits_lt]

theorem flipVertical_reg_lt (k : Consts) (s : State) (b : Bool) :
    (flipVertical k s b).1.MADCTL < 256 := by
  cases b <;> simp [flipVertical, setBits_lt, clearBits_lt]

/-- Claim C10: `flipHorizontal(false)` in a state whose MY bit is already set leaves the
orientation register unchanged and still sends the MADCTL command followed by the
register value as one data byte.  For every register value and every `b`, a second
`flipHorizontal(b)` (or `flipVertical(b)`) leaves the state of the first, and every call
puts exactly the MADCTL command and the updated register value on the bus, inside one
transaction. -/
theorem C10_flip_idempotence (k : Consts) (s : State) (b dc : Bool) :
    (s.MADCTL < 256 → s.MADCTL &&& k.ST77XX_MADCTL_MY = k.ST77XX_MADCTL_MY →
      (flipHorizontal k s false).1.MADCTL = s.MADCTL ∧
      wire dc (flipHorizontal k s false).2 =
        [Wire.txBegin, Wire.cmd (k.ST77XX_MADCTL % 256), Wire.dat s.MADCTL, Wire.txEnd]) ∧
    (flipHorizontal k (flipHorizontal k s b).1 b).1 = (flipHorizontal k s b).1 ∧
    (flipVertical k (flipVertical k s b).1 b).1 = (flipVertical k s b).1 ∧
    wire dc (flipHorizontal k s b).2 =
      [Wire.txBegin, Wire.cmd (k.ST77XX_MADCTL % 256),
        Wire.dat (flipHorizontal k s b).1.MADCTL, Wire.txEnd] ∧
    wire dc (flipVertical k s b).2 =
      [Wire.txBegin, Wire.cmd (k.ST77XX_MADCTL % 256),
        Wire.dat (flipVertical k s b).1.MADCTL, Wire.txEnd] := by
  refine ⟨fun hm hu => ?_, ?_, ?_, ?_, ?_⟩
  · have hs := setBits_of_set _ _ hm hu
    constructor
    · simp [flipHorizontal, hs]
    · have := wire_flip k (flipHorizontal k s false).1.MADCTL dc
      simp only [flipHorizontal, Bool.false_eq_true, if_false, hs] at this ⊢
      rw [this, Nat.mod_eq_of_lt hm]
  · cases b <;> simp [flipHorizontal, setBits_idem, clearBits_idem]
  · cases b <;> simp [flipVertical, setBits_idem, clearBits_idem]
  · have h := wire_flip k (flipHorizontal k s b).1.MADCTL dc
    rw [Nat.mod_eq_of_lt (flipHorizontal_reg_lt k s b)] at h
    exact h
  · have h := wire_flip k (flipVertical k s b).1.MADCTL dc
    rw [Nat.mod_eq_of_lt (flipVertical_reg_lt k s b)] at h
    exact h

/-- Witness for C10: `flipHorizontal(false)` in the initial state, where MADCTL is MY. -/
theorem C10_flip_idempotence_witness :
    (State.init dotMGConsts).MADCTL < 256 ∧
    (State.init dotMGConsts).MADCTL &&& dotMGConsts.ST77XX_MADCTL_MY =
      dotMGConsts.ST77XX_MADCTL_MY ∧
    (flipHorizontal dotMGConsts (State.init dotMGConsts) false).1.MADCTL = 0x80 ∧
    wire true (flipHorizontal dotMGConsts (State.init dotMGConsts) false).2 =
      [Wire.txBegin, Wire.cmd 0x36, Wire.dat 0x80, Wire.txEnd] :=
  ⟨by decide, by decide,
    (C10_flip_idempotence dotMGConsts (State.init dotMGConsts) false true).1
      (by decide) (by decide)⟩

/-! ## Call tables, painted regions and rectangles -/

theorem drawBorderEvents_eq_calls (g : Geometry) (k : Consts) (s : State) :
    drawBorderEvents g k s =
      startSPItransfer ++ (drawBorderCalls g).flatMap (FillCall.events k s) ++
        endSPItransfer := by
  simp only [drawBorderEvents, drawBorderCalls, FillCall.events, Slot.color, List.flatMap_cons,
    List.flatMap_nil, List.append_assoc, List.append_nil]

theorem drawLEDs_eq_call (g : Geometry) (k : Consts) (s : State) :
    drawLEDs g k s =
      startSPItransfer ++ (drawLEDsCall g k s).events k s ++ endSPItransfer := rfl

theorem blank_eq_call (g : Geometry) (k : Consts) (s : State) :
    blank g k s = startSPItransfer ++ (defaultFillCall g).events k s ++ endSPItransfer := by
  simp only [blank, FillCall.events, defaultFillCall, regionFill, Slot.color,
    setWriteRegionDefault, defaultRegion, Int.toNat_ofNat, List.append_assoc]

theorem dataBurst_sendPair (a b : Nat) (rest : List Ev) :
    dataBurst true (sendPair a b ++ rest) = pairBytes a b ++ dataBurst true rest := by
  simp [sendPair, SPItransfer, dataBurst, pairBytes]

theorem fillBytes_succ (color n : Nat) :
    fillBytes color (n + 1) = pairBytes color color ++ fillBytes color n := by
  unfold fillBytes
  rw [fillLoop, transferred_append]
  rfl

theorem dataBurst_fillLoop (color : Nat) (rest : List Ev) :
    ∀ n : Nat, dataBurst true (fillLoop color n ++ rest) =
      fillBytes color n ++ dataBurst true rest := by
  intro n
  induction n with
  | zero => rfl
  | succ n ih =>
    rw [fillLoop, List.append_assoc, dataBurst_sendPair, ih, fillBytes_succ,
      List.append_assoc]

theorem dataBurst_setWriteRegion (k : Consts) (x y width height : Nat) (dc : Bool)
    (rest : List Ev) : dataBurst dc (setWriteRegion k x y width height ++ rest) = [] := by
  simp [setWriteRegion, sendLCDCommand, LCDCommandMode, LCDDataMode, SPItransfer, dataBurst]

theorem dataBurst_call (k : Consts) (s : State) (c : FillCall) (dc : Bool) (rest : List Ev) :
    dataBurst dc (c.events k s ++ rest) = [] := by
  unfold FillCall.events regionFill
  rw [List.append_assoc, dataBurst_setWriteRegion]

theorem dataBurst_endSPItransfer (dc : Bool) (rest : List Ev) :
    dataBurst dc (endSPItransfer ++ rest) = [] := by
  simp [endSPItransfer, dataBurst]

theorem dataBurst_sendLCDCommand (command : Nat) (dc : Bool) (rest : List Ev) :
    dataBurst dc (sendLCDCommand command ++ rest) = [] := by
  simp [sendLCDCommand, LCDCommandMode, LCDDataMode, SPItransfer, dataBurst]

theorem paints_append_left_nil (a b : List Ev) (h : paints a = []) :
    paints (a ++ b) = paints b := by
  induction a with
  | nil => rfl
  | cons e es ih =>
    cases e <;> simp_all [paints]

theorem paints_sendPair (a b : Nat) : paints (sendPair a b) = [] := rfl

theorem paints_fillLoop (color : Nat) : ∀ n : Nat, paints (fillLoop color n) = [] := by
  intro n
  induction n with
  | zero => rfl
  | succ n ih => rw [fillLoop, paints_append_left_nil _ _ (paints_sendPair _ _), ih]

theorem paints_setWriteRegion (k : Consts) (x y width height : Nat) (rest : List Ev) :
    paints (setWriteRegion k x y width height ++ rest) =
      ⟨⟨x, y, width, height⟩, dataBurst true rest⟩ :: paints rest := by
  simp [setWriteRegion, sendLCDCommand, LCDCommandMode, LCDDataMode, SPItransfer, paints]

theorem paints_call (k : Consts) (s : State) (c : FillCall) (rest : List Ev) :
    paints (c.events k s ++ rest) =
      ⟨c.rect, fillBytes (c.slot.color k s) c.bound.toNat ++ dataBurst true rest⟩ ::
        paints rest := by
  unfold FillCall.events regionFill
  rw [List.append_assoc, paints_setWriteRegion, dataBurst_fillLoop,
    paints_append_left_nil _ _ (paints_fillLoop _ _)]
  rfl

theorem dataBurst_calls (k : Consts) (s : State) (rest : List Ev) (dc : Bool)
    (hrest : ∀ d, dataBurst d rest = []) :
    ∀ cs : List FillCall, dataBurst dc (cs.flatMap (FillCall.events k s) ++ rest) = [] := by
  intro cs
  cases cs with
  | nil => exact hrest dc
  | cons c cs => rw [List.flatMap_cons, List.append_assoc, dataBurst_call]

theorem paints_calls (k : Consts) (s : State) (rest : List Ev)
    (hrest : ∀ d, dataBurst d rest = []) :
    ∀ cs : List FillCall, paints (cs.flatMap (FillCall.events k s) ++ rest) =
      cs.map (fun c => ⟨c.rect, fillBytes (c.slot.color k s) c.bound.toNat⟩) ++
        paints rest := by
  intro cs
  induction cs with
  | nil => rfl
  | cons c cs ih =>
    rw [List.flatMap_cons, List.append_assoc, paints_call, ih,
      dataBurst_calls k s rest true hrest cs, List.append_nil]
    rfl

theorem paints_startSPItransfer (rest : List Ev) :
    paints (startSPItransfer ++ rest) = paints rest := rfl

theorem paints_drawBorder (g : Geometry) (k : Consts) (s : State) :
    paints (drawBorder g k s).2 =
      (drawBorderCalls g).map
        (fun c => ⟨c.rect, fillBytes (c.slot.color k s) c.bound.toNat⟩) := by
  have h := paints_calls k s endSPItransfer (fun d => dataBurst_endSPItransfer d [])
    (drawBorderCalls g)
  rw [show (drawBorder g k s).2 = drawBorderEvents g k s from rfl,
    drawBorderEvents_eq_calls, List.append_assoc]
  rw [paints_startSPItransfer, h, show paints endSPItransfer = [] from rfl, List.append_nil]



theorem Rect.apart_of_separate (a b : Rect) (h : a.separate b = true) : a.apart b := by
  intro px py ⟨ha, hb⟩
  unfold Rect.covers at ha hb
  simp only [Rect.separate, Bool.or_eq_true, decide_eq_true_eq] at h
  omega

/-- Claim C11: for each of the four colour slots and every 16-bit value `c`, after the
slot's setter is called with `c` the slot's getter returns `c` and the getters of the
other three slots return what they returned before. -/
theorem C11_colour_slots_independent (g : Geometry) (k : Consts) (s : State) (c : Nat) (hc : c < 65536) :
    (getBorderLineColor (setBorderLineColor g k s c).1 = c ∧
      getBorderFillColor (setBorderLineColor g k s c).1 = getBorderFillColor s ∧
      getPixelColor (setBorderLineColor g k s c).1 = getPixelColor s ∧
      getBackgroundColor (setBorderLineColor g k s c).1 = getBackgroundColor s) ∧
    (getBorderFillColor (setBorderFillColor g k s c).1 = c ∧
      getBorderLineColor (setBorderFillColor g k s c).1 = getBorderLineColor s ∧
      getPixelColor (setBorderFillColor g k s c).1 = getPixelColor s ∧
      getBackgroundColor (setBorderFillColor g k s c).1 = getBackgroundColor s) ∧
    (getPixelColor (setPixelColor s c).1 = c ∧
      getBorderLineColor (setPixelColor s c).1 = getBorderLineColor s ∧
      getBorderFillColor (setPixelColor s c).1 = getBorderFillColor s ∧
      getBackgroundColor (setPixelColor s c).1 = getBackgroundColor s) ∧
    (getBackgroundColor (setBackgroundColor g k s c).1 = c ∧
      getBorderLineColor (setBackgroundColor g k s c).1 = getBorderLineColor s ∧
      getBorderFillColor (setBackgroundColor g k s c).1 = getBorderFillColor s ∧
      getPixelColor (setBackgroundColor g k s c).1 = getPixelColor s) := by
  have hm : c % 65536 = c := Nat.mod_eq_of_lt hc
  refine ⟨?_, ?_, ?_, ?_⟩
  · cases hb : s.borderDrawn <;>
      simp [setBorderLineColor, drawBorder, getBorderLineColor, getBorderFillColor,
        getPixelColor, getBackgroundColor, hb, hm]
  · cases hb : s.borderDrawn <;>
      simp [setBorderFillColor, drawBorder, getBorderLineColor, getBorderFillColor,
        getPixelColor, getBackgroundColor, hb, hm]
  · simp [setPixelColor, getBorderLineColor, getBorderFillColor,
        getPixelColor, getBackgroundColor, hm]
  · cases hb : s.borderDrawn <;>
      simp [setBackgroundColor, drawBorder, getBorderLineColor, getBorderFillColor,
        getPixelColor, getBackgroundColor, hb, hm]

/-- Witness for C11: setting the border line colour in the initial state. -/
theorem C11_colour_slots_independent_witness :
    0x0F0 < 65536 ∧
    getBorderLineColor (setBorderLineColor dotMG dotMGConsts (State.init dotMGConsts) 0x0F0).1 =
      0x0F0 ∧
    getBackgroundColor (setBorderLineColor dotMG dotMGConsts (State.init dotMGConsts) 0x0F0).1 =
      getBackgroundColor (State.init dotMGConsts) :=
  ⟨by decide,
    (C11_colour_slots_independent dotMG dotMGConsts (State.init dotMGConsts) 0x0F0
      (by decide)).1.1,
    (C11_colour_slots_independent dotMG dotMGConsts (State.init dotMGConsts) 0x0F0
      (by decide)).1.2.2.2⟩

theorem bursts_call (k : Consts) (s : State) (c : FillCall) (rest : List Ev) :
    bursts (c.events k s ++ rest) =
      ⟨u8 c.x, u8 c.y, u8 c.width, u8 c.height, dataRun true rest + 3 * c.bound.toNat⟩ ::
        bursts rest :=
  bursts_regionFill k c.x c.y c.width c.height _ c.bound rest

theorem bursts_drawLEDs (g : Geometry) (k : Consts) (s : State) :
    bursts (drawLEDs g k s) =
      [⟨u8 (drawLEDsCall g k s).x, u8 (drawLEDsCall g k s).y, u8 (drawLEDsCall g k s).width,
        u8 (drawLEDsCall g k s).height, 3 * (drawLEDsCall g k s).bound.toNat⟩] := by
  have h0 : dataRun true endSPItransfer = 0 := rfl
  rw [drawLEDs_eq_call, List.append_assoc, bursts_startSPItransfer, bursts_call, h0,
    show bursts endSPItransfer = [] from rfl, Nat.zero_add]

/-- Claim C12 fails on the code: with the DotMG constants `drawLEDs` opens the region of
width 160 and height 4, which holds `160*4/2 = 320` triplets (960 data bytes), and then
sends `(160*5)/2 = 400` triplets (1200 data bytes) before ending the transaction. -/
theorem C12_drawLEDs_overrun (k : Consts) (s : State) :
    bursts (drawLEDs dotMG k s) =
      [⟨0, if s.MADCTL &&& k.ST77XX_MADCTL_MX ≠ 0 then 0 else 124, 160, 4, 1200⟩] ∧
    1200 = 3 * (dotMG.TFT_WIDTH * 5 / 2) ∧
    3 * (dotMG.TFT_WIDTH * 4 / 2) = 960 := by
  refine ⟨?_, rfl, rfl⟩
  rw [bursts_drawLEDs]
  unfold drawLEDsCall
  split <;> rfl


/-! ## Border geometry -/

theorem drawBorderCalls_rect_dotMG :
    (drawBorderCalls dotMG).map FillCall.rect = dotMGBorderRects := by decide

theorem bursts_drawBorder_rect_dotMG (k : Consts) (s : State) :
    (bursts (drawBorder dotMG k s).2).map Burst.rect = dotMGBorderRects := by
  have h := bursts_drawBorderEvents_dotMG k s []
  rw [List.append_nil] at h
  rw [show (drawBorder dotMG k s).2 = drawBorderEvents dotMG k s from rfl, h]
  rfl

theorem paints_drawBorder_rect_dotMG (k : Consts) (s : State) :
    (paints (drawBorder dotMG k s).2).map Paint.rect = dotMGBorderRects := by
  rw [paints_drawBorder, List.map_map]
  exact drawBorderCalls_rect_dotMG

theorem pairwise_apart_of_separate (l : List Rect)
    (h : l.Pairwise (fun a b => a.separate b = true)) : l.Pairwise Rect.apart :=
  h.imp (fun {a b} hab => Rect.apart_of_separate a b hab)

/-- Claim C13, amended: with the DotMG constants `drawBorder` opens exactly twelve write
regions, in the order fill colour (top bar, bottom bar, left column, right column), line
colour (top, bottom, left, right), background colour (four gaps), each filled with exactly
the triplets of its colour, and sets `borderDrawn`.  The eleven regions other than the
bottom fill bar are pairwise disjoint, and the bottom fill bar is disjoint from every
region other than the two side fill columns. -/
theorem C13_border_redraw_twelve_regions (k : Consts) (s : State) :
    paints (drawBorder dotMG k s).2 =
      [⟨⟨0, 0, 160, 30⟩, fillBytes s.borderFillColor 2400⟩,
       ⟨⟨0, 98, 160, 30⟩, fillBytes s.borderFillColor 2400⟩,
       ⟨⟨0, 30, 14, 70⟩, fillBytes s.borderFillColor 490⟩,
       ⟨⟨146, 30, 14, 70⟩, fillBytes s.borderFillColor 490⟩,
       ⟨⟨14, 30, 132, 1⟩, fillBytes s.borderLineColor 66⟩,
       ⟨⟨14, 97, 132, 1⟩, fillBytes s.borderLineColor 66⟩,
       ⟨⟨14, 31, 1, 66⟩, fillBytes s.borderLineColor 33⟩,
       ⟨⟨145, 31, 1, 66⟩, fillBytes s.borderLineColor 33⟩,
       ⟨⟨15, 31, 130, 1⟩, fillBytes s.bgColor 65⟩,
       ⟨⟨15, 96, 130, 1⟩, fillBytes s.bgColor 65⟩,
       ⟨⟨15, 32, 1, 64⟩, fillBytes s.bgColor 32⟩,
       ⟨⟨144, 32, 1, 64⟩, fillBytes s.bgColor 32⟩] ∧
    (drawBorder dotMG k s).1 = { s with borderDrawn := true } ∧
    List.Pairwise Rect.apart (((paints (drawBorder dotMG k s).2).map Paint.rect).eraseIdx 1) ∧
    ∀ r, r ∈ (paints (drawBorder dotMG k s).2).map Paint.rect →
      r ≠ ⟨0, 98, 160, 30⟩ → r ≠ ⟨0, 30, 14, 70⟩ → r ≠ ⟨146, 30, 14, 70⟩ →
        Rect.apart ⟨0, 98, 160, 30⟩ r := by
  refine ⟨?_, rfl, ?_, ?_⟩
  · rw [paints_drawBorder]
    rfl
  · rw [paints_drawBorder_rect_dotMG]
    apply pairwise_apart_of_separate
    decide
  · rw [paints_drawBorder_rect_dotMG]
    intro r hr h1 h2 h3
    apply Rect.apart_of_separate
    revert r
    decide

/-- Counterexample to C13 as stated: in the initial state `drawBorder` opens twelve write
regions, not nine, and they are not pairwise disjoint (the bottom fill bar and the left
fill column both contain the pixel `(0, 98)`). -/
theorem C13_nine_disjoint_regions_refuted :
    (paints (drawBorder dotMG dotMGConsts (State.init dotMGConsts)).2).length = 12 ∧
    ¬ (paints (drawBorder dotMG dotMGConsts (State.init dotMGConsts)).2).length = 9 ∧
    ¬ List.Pairwise Rect.apart
      ((paints (drawBorder dotMG dotMGConsts (State.init dotMGConsts)).2).map Paint.rect) := by
  have hlen : (paints (drawBorder dotMG dotMGConsts (State.init dotMGConsts)).2).length = 12 := by
    rw [paints_drawBorder, List.length_map]
    rfl
  refine ⟨hlen, by rw [hlen]; decide, ?_⟩
  rw [paints_drawBorder_rect_dotMG]
  intro h
  have h2 : Rect.apart ⟨0, 98, 160, 30⟩ ⟨0, 30, 14, 70⟩ := by
    simp only [dotMGBorderRects, List.pairwise_cons] at h
    exact h.2.1 _ (by simp)
  exact h2 0 98 ⟨by unfold Rect.covers; decide, by unfold Rect.covers; decide⟩


theorem inPanel_drawBorderCalls_dotMG : ∀ c ∈ drawBorderCalls dotMG, c.inPanel dotMG := by
  unfold FillCall.inPanel
  decide

theorem inPanel_drawLEDsCall_dotMG (k : Consts) (s : State) :
    (drawLEDsCall dotMG k s).inPanel dotMG := by
  unfold FillCall.inPanel drawLEDsCall
  split <;> decide

/-- Claim C14: with the DotMG constants, the write regions opened by `bootTFT`,
`paintScreen`, `blank`, `drawBorder` and `drawLEDs` are those of the listed call sites,
and at every call site the arguments and the end coordinates `x+width-1`, `y+height-1`
lie in `0..255` (so the conversion to `uint8_t` changes nothing), `width >= 1`,
`height >= 1`, `x + width <= TFT_WIDTH` and `y + height <= TFT_HEIGHT`. -/
theorem C14_regions_inside_panel (k : Consts) (s : State) (image : List Nat) (clear : Bool) :
    (bursts (bootTFT dotMG k s).2).map Burst.rect =
      (bootFillCall dotMG :: (drawBorderCalls dotMG ++ [defaultFillCall dotMG])).map
        FillCall.rect ∧
    (bursts (paintScreen dotMG k s image clear).2).map Burst.rect =
      [(defaultFillCall dotMG).rect] ∧
    (bursts (blank dotMG k s)).map Burst.rect = [(defaultFillCall dotMG).rect] ∧
    (bursts (drawBorder dotMG k s).2).map Burst.rect =
      (drawBorderCalls dotMG).map FillCall.rect ∧
    (bursts (drawLEDs dotMG k s)).map Burst.rect = [(drawLEDsCall dotMG k s).rect] ∧
    ∀ c, c ∈ bootFillCall dotMG :: defaultFillCall dotMG :: drawLEDsCall dotMG k s ::
        drawBorderCalls dotMG →
      c.inPanel dotMG ∧ c.rect = ⟨c.x.toNat, c.y.toNat, c.width.toNat, c.height.toNat⟩ := by
  refine ⟨?_, ?_, ?_, ?_, ?_, ?_⟩
  · rw [bursts_bootTFT_dotMG]
    decide
  · rw [bursts_paintScreen_dotMG]
    decide
  · rw [bursts_blank_dotMG]
    decide
  · rw [bursts_drawBorder_rect_dotMG, drawBorderCalls_rect_dotMG]
  · rw [bursts_drawLEDs]
    rfl
  · intro c hc
    have hin : c.inPanel dotMG := by
      simp only [List.mem_cons] at hc
      rcases hc with rfl | rfl | rfl | hc
      · unfold FillCall.inPanel; decide
      · unfold FillCall.inPanel; decide
      · exact inPanel_drawLEDsCall_dotMG k s
      · exact inPanel_drawBorderCalls_dotMG c hc
    refine ⟨hin, ?_⟩
    unfold FillCall.inPanel at hin
    unfold FillCall.rect u8
    congr 1 <;> omega


theorem drawLEDsCall_rect_dotMG (k : Consts) (s : State) :
    (drawLEDsCall dotMG k s).rect =
      ⟨0, if s.MADCTL &&& k.ST77XX_MADCTL_MX ≠ 0 then 0 else 124, 160, 4⟩ := by
  unfold drawLEDsCall
  split <;> rfl

/-- Claim C18, amended: with the DotMG constants the strip addressed by `drawLEDs`
(`x = 0`, width 160, height 4, `y = 0` when the MX bit is set and `y = 124` otherwise)
shares no pixel with the active drawing rectangle nor with any rectangle of `drawBorder`
other than the two full-width fill bars, and it lies entirely inside the fill bar on its
side (top bar when MX is set, bottom bar otherwise). -/
theorem C18_led_strip_regions (k : Consts) (s : State) :
    (bursts (drawLEDs dotMG k s)).map Burst.rect =
      [⟨0, if s.MADCTL &&& k.ST77XX_MADCTL_MX ≠ 0 then 0 else 124, 160, 4⟩] ∧
    (bursts (blank dotMG k s)).map Burst.rect = [⟨16, 32, 128, 64⟩] ∧
    Rect.apart ⟨0, if s.MADCTL &&& k.ST77XX_MADCTL_MX ≠ 0 then 0 else 124, 160, 4⟩
      ⟨16, 32, 128, 64⟩ ∧
    (∀ r, r ∈ (bursts (drawBorder dotMG k s).2).map Burst.rect →
      r ≠ ⟨0, 0, 160, 30⟩ → r ≠ ⟨0, 98, 160, 30⟩ →
        Rect.apart ⟨0, if s.MADCTL &&& k.ST77XX_MADCTL_MX ≠ 0 then 0 else 124, 160, 4⟩ r) ∧
    (∀ px py,
      Rect.covers ⟨0, if s.MADCTL &&& k.ST77XX_MADCTL_MX ≠ 0 then 0 else 124, 160, 4⟩ px py →
        Rect.covers (if s.MADCTL &&& k.ST77XX_MADCTL_MX ≠ 0 then ⟨0, 0, 160, 30⟩
          else ⟨0, 98, 160, 30⟩) px py) := by
  refine ⟨?_, ?_, ?_, ?_, ?_⟩
  · rw [bursts_drawLEDs]
    exact congrArg (fun r => [r]) (drawLEDsCall_rect_dotMG k s)
  · rw [bursts_blank_dotMG]
    rfl
  · apply Rect.apart_of_separate
    split <;> decide
  · rw [bursts_drawBorder_rect_dotMG]
    intro r hr h1 h2
    apply Rect.apart_of_separate
    revert r
    split <;> decide
  · intro px py
    unfold Rect.covers
    split <;> simp only <;> omega

/-- Counterexample to C18 as stated: in the initial state the LED strip `(0, 124, 160, 4)`
and the bottom fill bar `(0, 98, 160, 30)` painted by `drawBorder` share the pixel
`(0, 124)`. -/
theorem C18_led_strip_reserved_refuted :
    (bursts (drawLEDs dotMG dotMGConsts (State.init dotMGConsts))).map Burst.rect =
      [⟨0, 124, 160, 4⟩] ∧
    (⟨0, 98, 160, 30⟩ : Rect) ∈
      (bursts (drawBorder dotMG dotMGConsts (State.init dotMGConsts)).2).map Burst.rect ∧
    ¬ Rect.apart ⟨0, 124, 160, 4⟩ ⟨0, 98, 160, 30⟩ := by
  refine ⟨?_, ?_, ?_⟩
  · rw [bursts_drawLEDs]
    decide
  · rw [bursts_drawBorder_rect_dotMG]
    decide
  · intro h
    exact h 0 124 ⟨by unfold Rect.covers; decide, by unfold Rect.covers; decide⟩

theorem Rect.covers_mk (x y w h px py : Nat) :
    Rect.covers ⟨x, y, w, h⟩ px py ↔ x ≤ px ∧ px < x + w ∧ y ≤ py ∧ py < y + h := Iff.rfl

theorem dotMG_panel_tiled (px py : Nat) (hx : px < 160) (hy : py < 128) :
    Rect.covers ⟨16, 32, 128, 64⟩ px py ∨
      ∃ r, r ∈ dotMGBorderRects ∧ r.covers px py := by
  have pick : ∀ r : Rect, r ∈ dotMGBorderRects → r.covers px py →
      Rect.covers ⟨16, 32, 128, 64⟩ px py ∨ ∃ r, r ∈ dotMGBorderRects ∧ r.covers px py :=
    fun r hr hc => Or.inr ⟨r, hr, hc⟩
  by_cases h1 : py < 30
  · exact pick ⟨0, 0, 160, 30⟩ (by decide) ((Rect.covers_mk _ _ _ _ _ _).2 (by omega))
  by_cases h2 : 98 ≤ py
  · exact pick ⟨0, 98, 160, 30⟩ (by decide) ((Rect.covers_mk _ _ _ _ _ _).2 (by omega))
  by_cases h3 : px < 14
  · exact pick ⟨0, 30, 14, 70⟩ (by decide) ((Rect.covers_mk _ _ _ _ _ _).2 (by omega))
  by_cases h4 : 146 ≤ px
  · exact pick ⟨146, 30, 14, 70⟩ (by decide) ((Rect.covers_mk _ _ _ _ _ _).2 (by omega))
  by_cases h5 : py = 30
  · exact pick ⟨14, 30, 132, 1⟩ (by decide) ((Rect.covers_mk _ _ _ _ _ _).2 (by omega))
  by_cases h6 : py = 97
  · exact pick ⟨14, 97, 132, 1⟩ (by decide) ((Rect.covers_mk _ _ _ _ _ _).2 (by omega))
  by_cases h7 : px = 14
  · exact pick ⟨14, 31, 1, 66⟩ (by decide) ((Rect.covers_mk _ _ _ _ _ _).2 (by omega))
  by_cases h8 : px = 145
  · exact pick ⟨145, 31, 1, 66⟩ (by decide) ((Rect.covers_mk _ _ _ _ _ _).2 (by omega))
  by_cases h9 : py = 31
  · exact pick ⟨15, 31, 130, 1⟩ (by decide) ((Rect.covers_mk _ _ _ _ _ _).2 (by omega))
  by_cases h10 : py = 96
  · exact pick ⟨15, 96, 130, 1⟩ (by decide) ((Rect.covers_mk _ _ _ _ _ _).2 (by omega))
  by_cases h11 : px = 15
  · exact pick ⟨15, 32, 1, 64⟩ (by decide) ((Rect.covers_mk _ _ _ _ _ _).2 (by omega))
  by_cases h12 : px = 144
  · exact pick ⟨144, 32, 1, 64⟩ (by decide) ((Rect.covers_mk _ _ _ _ _ _).2 (by omega))
  exact Or.inl ((Rect.covers_mk _ _ _ _ _ _).2 (by omega))

/-- Claim C20: with the DotMG constants every panel pixel lies in the default drawing
rectangle `(16, 32, 128, 64)` or in at least one rectangle painted by `drawBorder`, and
no rectangle painted by `drawBorder` contains a pixel of the default drawing rectangle. -/
theorem C20_border_and_window_tile_panel (k : Consts) (s : State) (px py : Nat) (hx : px < dotMG.TFT_WIDTH)
    (hy : py < dotMG.TFT_HEIGHT) :
    defaultRegion dotMG = (16, 32, 128, 64) ∧
    (bursts (blank dotMG k s)).map Burst.rect = [⟨16, 32, 128, 64⟩] ∧
    (Rect.covers ⟨16, 32, 128, 64⟩ px py ∨
      ∃ r, r ∈ (bursts (drawBorder dotMG k s).2).map Burst.rect ∧ r.covers px py) ∧
    ∀ r, r ∈ (bursts (drawBorder dotMG k s).2).map Burst.rect →
      Rect.apart r ⟨16, 32, 128, 64⟩ := by
  refine ⟨by decide, ?_, ?_, ?_⟩
  · rw [bursts_blank_dotMG]
    rfl
  · rw [bursts_drawBorder_rect_dotMG]
    have hx2 : px < 160 := hx
    have hy2 : py < 128 := hy
    exact dotMG_panel_tiled px py hx2 hy2
  · rw [bursts_drawBorder_rect_dotMG]
    intro r hr
    apply Rect.apart_of_separate
    revert r
    decide


/-- Witness for C20: the panel corner `(0, 0)` lies in the top fill bar. -/
theorem C20_border_and_window_tile_panel_witness :
    (0 < dotMG.TFT_WIDTH ∧ 0 < dotMG.TFT_HEIGHT) ∧
    (Rect.covers ⟨16, 32, 128, 64⟩ 0 0 ∨
      ∃ r, r ∈ (bursts (drawBorder dotMG dotMGConsts (State.init dotMGConsts)).2).map
        Burst.rect ∧ r.covers 0 0) :=
  ⟨⟨by decide, by decide⟩,
    (C20_border_and_window_tile_panel dotMGConsts (State.init dotMGConsts) 0 0 (by decide)
      (by decide)).2.2.1⟩

/-! ## Low bits of the packed colours, flip bits and the LED strip -/

theorem pairBytes_low12 (a b : Nat) : pairBytes a b = pairBytes (a % 4096) b := by
  have h1 : a &&& 0xF = a % 16 := Nat.and_pow_two_sub_one_eq_mod a 4
  have h2 : (a % 4096) &&& 0xF = (a % 4096) % 16 := Nat.and_pow_two_sub_one_eq_mod _ 4
  have h3 : (a % 4096) % 16 = a % 16 := by omega
  have h4 : (a >>> 4) % 256 = ((a % 4096) >>> 4) % 256 := by
    rw [Nat.shiftRight_eq_div_pow, Nat.shiftRight_eq_div_pow]
    omega
  unfold pairBytes
  rw [h1, h2, h3, h4]

theorem pairBytes_second (a b : Nat) :
    (pairBytes a b)[1]? = some ((((a % 16) * 16) ||| (b / 256)) % 256) := by
  have h1 : a &&& 0xF = a % 16 := Nat.and_pow_two_sub_one_eq_mod a 4
  simp [pairBytes, h1, Nat.shiftLeft_eq, Nat.shiftRight_eq_div_pow]

/-- Claim C19, amended: the three bytes emitted for the pixel pair `(A, B)` equal the
bytes emitted for `(A mod 4096, B)`, so they depend only on the low 12 bits of `A`; they
equal the bytes emitted for `(A mod 4096, B mod 4096)` when `B < 4096`; the second byte
is `(((A mod 16) * 16) | (B / 256)) mod 256`, in which bits 12..15 of `B` are OR-ed into
the nibble that carries the low 4 bits of `A`. -/
theorem C19_triplet_low_bits (a b : Nat) :
    transferred (sendPair a b) = transferred (sendPair (a % 4096) b) ∧
    (b < 4096 → transferred (sendPair a b) = transferred (sendPair (a % 4096) (b % 4096))) ∧
    (transferred (sendPair a b))[1]? = some ((((a % 16) * 16) ||| (b / 256)) % 256) := by
  rw [transferred_sendPair, transferred_sendPair]
  refine ⟨pairBytes_low12 a b, fun hb => ?_, pairBytes_second a b⟩
  rw [transferred_sendPair, Nat.mod_eq_of_lt hb]
  exact pairBytes_low12 a b

/-- Counterexample to C19 as stated: for `A = 0` and `B = 0x1000` the code emits
`0, 0x10, 0`, while for `(A mod 4096, B mod 4096) = (0, 0)` it emits `0, 0, 0`. -/
theorem C19_high_bits_of_second_colour_refuted :
    transferred (sendPair 0 0x1000) = [0, 0x10, 0] ∧
    transferred (sendPair (0 % 4096) (0x1000 % 4096)) = [0, 0, 0] ∧
    transferred (sendPair 0 0x1000) ≠ transferred (sendPair (0 % 4096) (0x1000 % 4096)) := by
  refine ⟨by decide, by decide, by decide⟩

/-- Witness for C19: a pair of 16-bit colours whose second colour is a 12-bit value. -/
theorem C19_triplet_low_bits_witness :
    0x0DEF < 4096 ∧
    transferred (sendPair 0xFABC 0x0DEF) =
      transferred (sendPair (0xFABC % 4096) (0x0DEF % 4096)) :=
  ⟨by decide, (C19_triplet_low_bits 0xFABC 0x0DEF).2.1 (by decide)⟩

theorem testBit_setBits (m mask n : Nat) :
    (setBits m mask).testBit n = (decide (n < 8) && (m.testBit n || mask.testBit n)) := by
  unfold setBits
  rw [show (256 : Nat) = 2 ^ 8 from rfl, Nat.testBit_mod_two_pow, Nat.testBit_or]

theorem testBit_clearBits (m mask n : Nat) :
    (clearBits m mask).testBit n = (decide (n < 8) && (m.testBit n && !mask.testBit n)) := by
  unfold clearBits
  rw [show (256 : Nat) = 2 ^ 8 from rfl, show (0xFF : Nat) = 2 ^ 8 - 1 from rfl,
    Nat.testBit_mod_two_pow, Nat.testBit_and, Nat.testBit_xor, Nat.testBit_two_pow_sub_one,
    Nat.testBit_mod_two_pow]
  cases decide (n < 8) <;> cases m.testBit n <;> cases mask.testBit n <;> rfl

theorem testBit_reg_high (m n : Nat) (hm : m < 256) (hn : ¬ n < 8) : m.testBit n = false := by
  apply Nat.testBit_lt_two_pow
  calc m < 2 ^ 8 := hm
    _ ≤ 2 ^ n := Nat.pow_le_pow_right (by norm_num) (by omega)

/-- Claim C17: when MX and MY are distinct single bits of an 8-bit register,
`flipHorizontal(a)` sets bit MY to `not a` and `flipVertical(b)` sets bit MX to `b`, each
leaving every other bit of MADCTL as it was; the two flips commute; and a flip changes no
other variable (colours, invert flag, LED intensities, `borderDrawn`). -/
theorem C17_flip_bits_independent (k : Consts) (s : State) (a b : Bool) (i j : Nat)
    (hMX : k.ST77XX_MADCTL_MX = 2 ^ i) (hMY : k.ST77XX_MADCTL_MY = 2 ^ j)
    (hi : i < 8) (hj : j < 8) (hij : i ≠ j) (hm : s.MADCTL < 256) :
    (∀ n, (flipHorizontal k s a).1.MADCTL.testBit n =
      if n = j then !a else s.MADCTL.testBit n) ∧
    (∀ n, (flipVertical k s b).1.MADCTL.testBit n =
      if n = i then b else s.MADCTL.testBit n) ∧
    (flipVertical k (flipHorizontal k s a).1 b).1 =
      (flipHorizontal k (flipVertical k s b).1 a).1 ∧
    (flipHorizontal k s a).1 = { s with MADCTL := (flipHorizontal k s a).1.MADCTL } ∧
    (flipVertical k s b).1 = { s with MADCTL := (flipVertical k s b).1.MADCTL } := by
  refine ⟨?_, ?_, ?_, rfl, rfl⟩
  · intro n
    by_cases hn8 : n < 8
    · by_cases hnj : n = j
      · cases a <;>
          simp [flipHorizontal, testBit_setBits, testBit_clearBits, hMY, Nat.testBit_two_pow,
            hnj, hj]
      · have hjn : ¬ j = n := fun h => hnj h.symm
        cases a <;>
          simp [flipHorizontal, testBit_setBits, testBit_clearBits, hMY, Nat.testBit_two_pow,
            hnj, hjn, hn8]
    · have hnj : n ≠ j := by omega
      have hhigh := testBit_reg_high _ n hm hn8
      cases a <;>
        simp [flipHorizontal, testBit_setBits, testBit_clearBits, hn8, hnj, hhigh]
  · intro n
    by_cases hn8 : n < 8
    · by_cases hni : n = i
      · cases b <;>
          simp [flipVertical, testBit_setBits, testBit_clearBits, hMX, Nat.testBit_two_pow,
            hni, hi]
      · have hin : ¬ i = n := fun h => hni h.symm
        cases b <;>
          simp [flipVertical, testBit_setBits, testBit_clearBits, hMX, Nat.testBit_two_pow,
            hni, hin, hn8]
    · have hni : n ≠ i := by omega
      have hhigh := testBit_reg_high _ n hm hn8
      cases b <;>
        simp [flipVertical, testBit_setBits, testBit_clearBits, hn8, hni, hhigh]
  · have hreg : (flipVertical k (flipHorizontal k s a).1 b).1.MADCTL =
        (flipHorizontal k (flipVertical k s b).1 a).1.MADCTL := by
      apply Nat.eq_of_testBit_eq
      intro n
      have hpq : (decide (i = n) && decide (j = n)) = false := by
        by_cases h1 : i = n
        · have h2 : ¬ j = n := fun h => hij (h1.trans h.symm)
          simp [h2]
        · simp [h1]
      cases a <;> cases b <;>
        simp only [flipHorizontal, flipVertical, testBit_setBits, testBit_clearBits, hMX, hMY,
          Nat.testBit_two_pow, Bool.false_eq_true, if_false, if_true] <;>
        revert hpq <;>
        generalize decide (i = n) = p <;>
        generalize decide (j = n) = q <;>
        cases p <;> cases q <;> cases s.MADCTL.testBit n <;> cases decide (n < 8) <;>
        simp
    simp only [flipHorizontal, flipVertical] at hreg ⊢
    rw [hreg]


/-- Witness for C17: the ST7735 masks MX = 0x40 and MY = 0x80 in the initial state. -/
theorem C17_flip_bits_independent_witness :
    (dotMGConsts.ST77XX_MADCTL_MX = 2 ^ 6 ∧ dotMGConsts.ST77XX_MADCTL_MY = 2 ^ 7 ∧
      (State.init dotMGConsts).MADCTL < 256) ∧
    (flipVertical dotMGConsts (flipHorizontal dotMGConsts (State.init dotMGConsts) true).1
        true).1 =
      (flipHorizontal dotMGConsts (flipVertical dotMGConsts (State.init dotMGConsts) true).1
        true).1 :=
  ⟨⟨rfl, rfl, by decide⟩,
    (C17_flip_bits_independent dotMGConsts (State.init dotMGConsts) true true 6 7 rfl rfl
      (by decide) (by decide) (by decide) (by decide)).2.2.1⟩

theorem fillBytes_eq_flatten (color : Nat) :
    ∀ n : Nat, fillBytes color n = (List.replicate n (pairBytes color color)).flatten := by
  intro n
  induction n with
  | zero => rfl
  | succ n ih => rw [fillBytes_succ, ih, List.replicate_succ, List.flatten_cons]

theorem decode_fillBytes (color : Nat) (hc : color < 4096) :
    ∀ n : Nat, decodePixels (fillBytes color n) = List.replicate (2 * n) color := by
  intro n
  induction n with
  | zero => rfl
  | succ n ih =>
    have h := decode_sendPair color color hc hc (fillLoop color n)
    unfold fillBytes at ih ⊢
    rw [fillLoop, h, ih, show 2 * (n + 1) = 2 * n + 1 + 1 from by ring, List.replicate_succ,
      List.replicate_succ]

theorem paints_drawLEDs (g : Geometry) (k : Consts) (s : State) :
    paints (drawLEDs g k s) =
      [⟨(drawLEDsCall g k s).rect, fillBytes (ledColor k s) (drawLEDsCall g k s).bound.toNat⟩] := by
  have h0 : dataBurst true endSPItransfer = [] := rfl
  rw [drawLEDs_eq_call, List.append_assoc, paints_startSPItransfer, paints_call, h0,
    show paints endSPItransfer = [] from rfl, List.append_nil]
  rfl

theorem ledChannel_eq (s : State) (i : Nat) (h : s.LEDs.getD i 0 < 256) :
    ledChannel s i = if s.inverted then 255 - s.LEDs.getD i 0 else s.LEDs.getD i 0 := by
  unfold ledChannel u8
  split <;> omega

theorem ledQuant_range (v : Nat) (hv : v < 256) :
    ledQuant v ≤ 15 ∧ (ledQuant v = 15 ↔ v = 255) ∧ (ledQuant v = 0 ↔ v < 17) := by
  unfold ledQuant
  refine ⟨by omega, ⟨fun h => by omega, fun h => by omega⟩, ⟨fun h => by omega, fun h => by omega⟩⟩

theorem getD_lt_of_forall (l : List Nat) (h : ∀ v ∈ l, v < 256) (i : Nat) :
    l.getD i 0 < 256 := by
  rw [List.getD_eq_getElem?_getD]
  cases hi : l[i]? with
  | none => simp
  | some v => simpa using h v (List.getElem?_mem hi)

/-- Claim C15: with the DotMG constants and 8-bit LED intensities, `drawLEDs` opens the
single region `x = 0`, width 160, height 4, with `y = 0` when the MX bit of MADCTL is set
and `y = 124` otherwise; everything it sends is the triplet of the pair `(c, c)` repeated,
where `c` is `COLOR` applied to `(v*15)/255` of each channel `v`, complemented to
`255 - v` first when inverted; each quantised channel is in `0..15`, is 15 exactly for the
input 255 and is 0 exactly for an input below 17. -/
theorem C15_drawLEDs_flat_quantised_colour (k : Consts) (s : State) (hLED : ∀ v ∈ s.LEDs, v < 256) :
    paints (drawLEDs dotMG k s) =
      [⟨⟨0, if s.MADCTL &&& k.ST77XX_MADCTL_MX ≠ 0 then 0 else 124, 160, 4⟩,
        fillBytes (ledColor k s) 400⟩] ∧
    fillBytes (ledColor k s) 400 =
      (List.replicate 400 (pairBytes (ledColor k s) (ledColor k s))).flatten ∧
    (ledColor k s < 4096 →
      decodePixels (fillBytes (ledColor k s) 400) = List.replicate 800 (ledColor k s)) ∧
    ledColor k s =
      k.COLOR
        (ledQuant (if s.inverted then 255 - s.LEDs.getD k.RED_LED 0
          else s.LEDs.getD k.RED_LED 0))
        (ledQuant (if s.inverted then 255 - s.LEDs.getD k.GREEN_LED 0
          else s.LEDs.getD k.GREEN_LED 0))
        (ledQuant (if s.inverted then 255 - s.LEDs.getD k.BLUE_LED 0
          else s.LEDs.getD k.BLUE_LED 0)) % 65536 ∧
    (∀ v, v < 256 →
      ledQuant v ≤ 15 ∧ (ledQuant v = 15 ↔ v = 255) ∧ (ledQuant v = 0 ↔ v < 17)) := by
  refine ⟨?_, fillBytes_eq_flatten _ _, fun hc => decode_fillBytes _ hc 400, ?_, ledQuant_range⟩
  · rw [paints_drawLEDs, drawLEDsCall_rect_dotMG]
    rfl
  · unfold ledColor
    rw [ledChannel_eq s _ (getD_lt_of_forall _ hLED _),
      ledChannel_eq s _ (getD_lt_of_forall _ hLED _),
      ledChannel_eq s _ (getD_lt_of_forall _ hLED _)]


/-- Witness for C15: red at full intensity in the initial state. -/
theorem C15_drawLEDs_flat_quantised_colour_witness :
    (∀ v ∈ ({ State.init dotMGConsts with LEDs := [255, 0, 0] } : State).LEDs, v < 256) ∧
    paints (drawLEDs dotMG dotMGConsts { State.init dotMGConsts with LEDs := [255, 0, 0] }) =
      [⟨⟨0, 124, 160, 4⟩, fillBytes 0xF00 400⟩] :=
  ⟨by decide,
    (C15_drawLEDs_flat_quantised_colour dotMGConsts
      { State.init dotMGConsts with LEDs := [255, 0, 0] } (by decide)).1⟩

/-! ## Bus view of the bring-up sequence -/

theorem wire_append (a b : List Ev) : ∀ dc : Bool,
    wire dc (a ++ b) = wire dc a ++ wire (dcAfter dc a) b := by
  induction a with
  | nil => intro dc; rfl
  | cons e es ih =>
    intro dc
    cases e with
    | pinWrite p v => cases p <;> simp [wire, dcAfter, ih]
    | _ => simp [wire, dcAfter, ih]

theorem dcAfter_append (a b : List Ev) : ∀ dc : Bool,
    dcAfter dc (a ++ b) = dcAfter (dcAfter dc a) b := by
  induction a with
  | nil => intro dc; rfl
  | cons e es ih =>
    intro dc
    cases e with
    | pinWrite p v => cases p <;> simp [dcAfter, ih]
    | _ => simp [dcAfter, ih]

theorem wire_sendPair (a b : Nat) :
    wire true (sendPair a b) = (pairBytes a b).map Wire.dat := by
  simp [sendPair, SPItransfer, wire, pairBytes]

theorem dcAfter_sendPair (a b : Nat) (dc : Bool) : dcAfter dc (sendPair a b) = dc := rfl

theorem dcAfter_fillLoop (color : Nat) (dc : Bool) :
    ∀ n : Nat, dcAfter dc (fillLoop color n) = dc := by
  intro n
  induction n with
  | zero => rfl
  | succ n ih => rw [fillLoop, dcAfter_append, dcAfter_sendPair, ih]

theorem wire_fillLoop (color : Nat) :
    ∀ n : Nat, wire true (fillLoop color n) = (fillBytes color n).map Wire.dat := by
  intro n
  induction n with
  | zero => rfl
  | succ n ih =>
    rw [fillLoop, wire_append, dcAfter_sendPair, wire_sendPair, ih, fillBytes_succ,
      List.map_append]

theorem wire_sendLCDCommand (command : Nat) (dc : Bool) :
    wire dc (sendLCDCommand command) = [Wire.cmd (command % 256)] := by
  simp [sendLCDCommand, LCDCommandMode, LCDDataMode, SPItransfer, wire]

theorem dcAfter_sendLCDCommand (command : Nat) (dc : Bool) :
    dcAfter dc (sendLCDCommand command) = true := rfl

theorem wire_delayShort (ms : Nat) (dc : Bool) : wire dc (delayShort ms) = [] := rfl

theorem dcAfter_delayShort (ms : Nat) (dc : Bool) : dcAfter dc (delayShort ms) = dc := rfl

theorem wire_startSPItransfer (dc : Bool) : wire dc startSPItransfer = [Wire.txBegin] := rfl

theorem dcAfter_startSPItransfer (dc : Bool) : dcAfter dc startSPItransfer = dc := rfl

theorem wire_endSPItransfer (dc : Bool) : wire dc endSPItransfer = [Wire.txEnd] := rfl

theorem dcAfter_endSPItransfer (dc : Bool) : dcAfter dc endSPItransfer = dc := rfl

theorem wire_SPItransfer (b : Nat) : wire true (SPItransfer b) = [Wire.dat (b % 256)] := rfl

theorem dcAfter_SPItransfer (b : Nat) (dc : Bool) : dcAfter dc (SPItransfer b) = dc := rfl

theorem wire_sendBytes : ∀ bs : List Nat,
    wire true (sendBytes bs) = bs.map (fun b => Wire.dat (b % 256)) := by
  intro bs
  induction bs with
  | nil => rfl
  | cons b bs ih =>
    rw [sendBytes, wire_append, dcAfter_SPItransfer, wire_SPItransfer, ih]
    rfl

theorem dcAfter_sendBytes (dc : Bool) : ∀ bs : List Nat, dcAfter dc (sendBytes bs) = dc := by
  intro bs
  induction bs with
  | nil => rfl
  | cons b bs ih => rw [sendBytes, dcAfter_append, dcAfter_SPItransfer, ih]

theorem dcAfter_setWriteRegion (k : Consts) (x y width height : Nat) (dc : Bool) :
    dcAfter dc (setWriteRegion k x y width height) = true := rfl

theorem wire_regionFill (k : Consts) (x y width height : Int) (color : Nat) (bound : Int)
    (dc : Bool) :
    wire dc (regionFill k x y width height color bound) =
      wire dc (setWriteRegion k (u8 x) (u8 y) (u8 width) (u8 height)) ++
        (fillBytes color bound.toNat).map Wire.dat := by
  unfold regionFill
  rw [wire_append, dcAfter_setWriteRegion, wire_fillLoop]

theorem dcAfter_regionFill (k : Consts) (x y width height : Int) (color : Nat) (bound : Int)
    (dc : Bool) : dcAfter dc (regionFill k x y width height color bound) = true := by
  unfold regionFill
  rw [dcAfter_append, dcAfter_setWriteRegion, dcAfter_fillLoop]

theorem dcAfter_setWriteRegionDefault (g : Geometry) (k : Consts) (dc : Bool) :
    dcAfter dc (setWriteRegionDefault g k) = true := rfl

theorem wire_LCDCommandMode (dc : Bool) : wire dc LCDCommandMode = [] := rfl

theorem dcAfter_LCDCommandMode (dc : Bool) : dcAfter dc LCDCommandMode = false := rfl

theorem wire_LCDDataMode (dc : Bool) : wire dc LCDDataMode = [] := rfl

theorem dcAfter_LCDDataMode (dc : Bool) : dcAfter dc LCDDataMode = true := rfl

theorem cons_append_step (a : Wire) (as bs : List Wire) :
    (a :: as) ++ bs = a :: (as ++ bs) := by
  cases as <;> rfl

theorem nil_append_step (bs : List Wire) : [] ++ bs = bs := by
  cases bs <;> rfl

/-- Claim C16: for every initial state and the DotMG constants, the bus sees from
`bootTFT` one transaction with, in order and with nothing in between, SWRESET, SLPOUT,
FRMCTR1 with data `01 2C 2D`, MADCTL with the orientation register, COLMOD with data
`03`, GMCTRP1 and GMCTRN1 with sixteen data bytes each, the header of the write region
`(0, 0, 160, 128)`, `160*128/2` background triplets and DISPON; then the bus traffic of
one `drawBorder` run; then one transaction with the header of the default region
`(16, 32, 128, 64)` and `128*64/2` background triplets.  `borderDrawn` is true afterwards,
and the fill bytes are the triplet of the pair `(bgColor, bgColor)` repeated. -/
theorem C16_golden_bring_up_sequence (k : Consts) (s : State) (dc : Bool) :
    wire dc (bootTFT dotMG k s).2 =
      [Wire.txBegin, Wire.cmd (k.ST77XX_SWRESET % 256), Wire.cmd (k.ST77XX_SLPOUT % 256),
        Wire.cmd (k.ST7735_FRMCTR1 % 256), Wire.dat 0x01, Wire.dat 0x2C, Wire.dat 0x2D,
        Wire.cmd (k.ST77XX_MADCTL % 256), Wire.dat (s.MADCTL % 256),
        Wire.cmd (k.ST77XX_COLMOD % 256), Wire.dat 0x03,
        Wire.cmd (k.ST7735_GMCTRP1 % 256)] ++
      gammaPositive.map Wire.dat ++
      [Wire.cmd (k.ST7735_GMCTRN1 % 256)] ++
      gammaNegative.map Wire.dat ++
      wire true (setWriteRegion k 0 0 160 128) ++
      (fillBytes s.bgColor (160 * 128 / 2)).map Wire.dat ++
      [Wire.cmd (k.ST77XX_DISPON % 256), Wire.txEnd] ++
      wire true (drawBorder dotMG k s).2 ++
      [Wire.txBegin] ++
      wire true (setWriteRegion k 16 32 128 64) ++
      (fillBytes s.bgColor (128 * 64 / 2)).map Wire.dat ++
      [Wire.txEnd] ∧
    gammaPositive.length = 16 ∧ gammaNegative.length = 16 ∧
    (bootTFT dotMG k s).1 = { s with borderDrawn := true } ∧
    (∀ n, fillBytes s.bgColor n =
      (List.replicate n (pairBytes s.bgColor s.bgColor)).flatten) := by
  refine ⟨?_, rfl, rfl, rfl, fillBytes_eq_flatten _⟩
  unfold bootTFT
  simp only [wire_append, dcAfter_append, wire_sendLCDCommand, dcAfter_sendLCDCommand,
    wire_delayShort, dcAfter_delayShort, wire_startSPItransfer, dcAfter_startSPItransfer,
    wire_endSPItransfer, dcAfter_endSPItransfer, wire_SPItransfer, dcAfter_SPItransfer,
    wire_sendBytes, dcAfter_sendBytes, wire_regionFill, dcAfter_regionFill,
    dcAfter_setWriteRegionDefault, wire_LCDCommandMode, dcAfter_LCDCommandMode,
    wire_LCDDataMode, dcAfter_LCDDataMode, wire_fillLoop, dcAfter_fillLoop]
  have hdc : dcAfter true (drawBorder dotMG k s).2 = true := by
    simp only [drawBorder, drawBorderEvents, dcAfter_append, dcAfter_regionFill,
      dcAfter_startSPItransfer, dcAfter_endSPItransfer]
  have hn1 : (Int.tdiv ((dotMG.TFT_WIDTH : Int) * dotMG.TFT_HEIGHT) 2).toNat = 160 * 128 / 2 := by
    decide
  have hn2 : dotMG.WIDTH * dotMG.HEIGHT / 2 = 128 * 64 / 2 := by decide
  have hu0 : u8 0 = 0 := by decide
  have huw : u8 (dotMG.TFT_WIDTH : Int) = 160 := by decide
  have huh : u8 (dotMG.TFT_HEIGHT : Int) = 128 := by decide
  have hdef : setWriteRegionDefault dotMG k = setWriteRegion k 16 32 128 64 := by
    unfold setWriteRegionDefault
    rw [show defaultRegion dotMG = (16, 32, 128, 64) from by decide]
  have hpre : ∀ d : Bool, wire d [Ev.pinMode Pin.TFT_CS, Ev.pinMode Pin.TFT_DC,
      Ev.pinMode Pin.TFT_RST, Ev.pinWrite Pin.TFT_CS true] = [] := fun _ => rfl
  have hrst : ∀ d : Bool, wire d [Ev.pinWrite Pin.TFT_RST true] = [] := fun _ => rfl
  rw [hdc, hn1, hn2, hu0, huw, huh, hdef, hpre, hrst]
  generalize List.map Wire.dat (fillBytes s.bgColor (160 * 128 / 2)) = fill1
  generalize List.map Wire.dat (fillBytes s.bgColor (128 * 64 / 2)) = fill2
  generalize wire true (drawBorder dotMG k s).2 = border
  generalize wire true (setWriteRegion k 0 0 160 128) = header1
  generalize wire true (setWriteRegion k 16 32 128 64) = header2
  simp only [List.append_assoc, List.nil_append, gammaPositive, gammaNegative, List.map_cons,
    List.map_nil]
  simp only [cons_append_step, nil_append_step, Nat.reduceMod]


end Arduboy2DotMG
